import Mathlib

/-!
Shallow embedding of the Vanik inventory ledger core
(src/backend/database_storage.py) and verification of the spec claims.

Conventions of the embedding:
* Quantities (`NUMERIC` columns, Python floats) are modelled as `Int`;
  every concrete scenario in the spec uses integral kilograms.
* The backing store is a `DB` record of lists.  Each call to the source's
  `execute_query` runs on its own pooled connection and commits immediately
  (database_storage.py line 161: `connection.commit()` per statement), so a
  statement issued through `execute_query` is modelled as a pure update of
  the `DB` value that is immediately visible to later statements.  The only
  explicit multi-statement transaction in the modelled code is the private
  cursor used by `create_sales_order`, whose rollback is modelled by
  discarding the rows written through that cursor only.
* SQL `ORDER BY created_at ASC` carries no tiebreaker; Postgres row order on
  equal keys is unspecified.  It is modelled as a stable sort over the
  storage order of the table, so states with tied `created_at` values keep
  their list order.
* `datetime.now` timestamps are modelled by a logical clock in `DB`.
-/

namespace Vanik

/-- Decidable equality on results, used to evaluate the concrete claim
scenarios by `decide`. -/
instance {ε α : Type} [DecidableEq ε] [DecidableEq α] : DecidableEq (Except ε α) := fun x y =>
  match x, y with
  | .error a, .error b =>
    if h : a = b then isTrue (congrArg Except.error h)
    else isFalse (fun hh => h (Except.error.inj hh))
  | .ok a, .ok b =>
    if h : a = b then isTrue (congrArg Except.ok h)
    else isFalse (fun hh => h (Except.ok.inj hh))
  | .error _, .ok _ => isFalse (fun hh => Except.noConfusion hh)
  | .ok _, .error _ => isFalse (fun hh => Except.noConfusion hh)

/-- Transaction types stored in `inventory_transactions.transaction_type`. -/
inductive TxnType
  | INBOUND
  | OUTBOUND
  | ADJUSTMENT
deriving Repr, DecidableEq

/-- Reservation tags stored in `inventory_transactions.reservation_type`. -/
inductive ResTag
  | RESERVE
  | UNRESERVE
deriving Repr, DecidableEq

/-- A row of `inventory_lots`. -/
structure Lot where
  id : Nat
  lot_number : String
  product_id : Nat
  category_id : Nat
  location_id : Nat
  supplier_id : Nat
  grn_item_id : Nat
  available_quantity : Int
  committed_quantity : Int
  created_at : Nat
deriving Repr, DecidableEq

/-- A row of `inventory_transactions` (the columns the ledger core uses). -/
structure Txn where
  lot_id : Nat
  transaction_type : TxnType
  quantity : Int
  location_id : Nat
  reference_type : Option String
  reference_id : Option Nat
  reservation_type : Option ResTag
  balance_quantity : Int
deriving Repr, DecidableEq

/-- A row of `sales_orders` (the columns the ledger core uses). -/
structure SalesOrder where
  id : Nat
  so_number : String
  customer_id : Nat
  status : String
  converted_to_challan : Bool
  is_deleted : Bool
deriving Repr, DecidableEq

/-- A row of `sales_order_items`. -/
structure SalesOrderItem where
  so_id : Nat
  category_id : Nat
  product_id : Nat
  quantity_bags : Nat
  weight_kg : Int
deriving Repr, DecidableEq

/-- A row of `sales_challans` (the columns the ledger core uses). -/
structure SalesChallan where
  id : Nat
  sc_number : String
  customer_id : Nat
deriving Repr, DecidableEq

/-- A row of `sales_challan_items`. -/
structure SalesChallanItem where
  id : Nat
  sc_id : Nat
  category_id : Nat
  product_id : Nat
  quantity_bags : Nat
  weight_kg : Int
  inventory_transaction_id : Option Nat
deriving Repr, DecidableEq

/-- Calendar date used when minting identifiers. -/
structure Date where
  year : Nat
  month : Nat
  day : Nat
deriving Repr, DecidableEq

/-- The backing store. -/
structure DB where
  lots : List Lot
  txns : List Txn
  sales_orders : List SalesOrder
  sales_order_items : List SalesOrderItem
  sales_challans : List SalesChallan
  sales_challan_items : List SalesChallanItem
  active_locations : List Nat
  next_lot_id : Nat
  next_so_id : Nat
  next_sc_id : Nat
  next_sc_item_id : Nat
  clock : Nat
  today : Date
deriving Repr, DecidableEq

/-- An empty store with one active location (id 1), dated 2025-07-20. -/
def emptyDB : DB :=
  { lots := [], txns := [], sales_orders := [], sales_order_items := []
    sales_challans := [], sales_challan_items := [], active_locations := [1]
    next_lot_id := 1, next_so_id := 1, next_sc_id := 1, next_sc_item_id := 1
    clock := 0, today := ⟨2025, 7, 20⟩ }

/-! ### Identifier minting

`create_grn` / `create_sales_order` / `create_sales_challan` /
`create_purchase_order` format the month with `strftime('%b').upper()` and
gap-fill the trailing integer; `create_inventory_lot` formats the month with
`strftime('%m')` (zero-padded digits) and gap-fills; `create_job_order`
formats the month with the abbreviation but takes `COUNT(*) + 1`. -/

/-- Uppercase three-letter English month abbreviation, as produced by
Python `strftime('%b').upper()`. -/
def monthAbbrev : Nat → String
  | 1 => "JAN" | 2 => "FEB" | 3 => "MAR" | 4 => "APR"
  | 5 => "MAY" | 6 => "JUN" | 7 => "JUL" | 8 => "AUG"
  | 9 => "SEP" | 10 => "OCT" | 11 => "NOV" | 12 => "DEC"
  | _ => ""

/-- Zero-padded two-digit rendering, as produced by `strftime('%m')` and
`strftime('%d')`. -/
def pad2 (n : Nat) : String :=
  if n < 10 then "0" ++ toString n else toString n

/-- Date-scoped identifier stem with the month abbreviation, e.g.
"GRN/2025/JUL/20/". -/
def dateStemAbbrev (pfx : String) (d : Date) : String :=
  pfx ++ "/" ++ toString d.year ++ "/" ++ monthAbbrev d.month ++ "/" ++ pad2 d.day ++ "/"

/-- Date-scoped identifier stem with the numeric month, e.g.
"LOT/2025/07/20/" (create_inventory_lot, line 3090 uses strftime %m). -/
def dateStemNumeric (pfx : String) (d : Date) : String :=
  pfx ++ "/" ++ toString d.year ++ "/" ++ pad2 d.month ++ "/" ++ pad2 d.day ++ "/"

/-- The SQL `LIKE 'stem%'` filter on an identifier. -/
def strStartsWith (s stem : String) : Bool :=
  stem.data.isPrefixOf s.data

/-- Python `str.split('/')` on the character list of an identifier. -/
def splitSlash : List Char → List (List Char)
  | [] => [[]]
  | c :: cs =>
    let r := splitSlash cs
    if c == '/' then [] :: r
    else
      match r with
      | [] => [[c]]
      | h :: t => (c :: h) :: t

/-- Python `int(...)` on a split part, `None` when it does not parse
(the source skips such rows via `except ValueError`). -/
def digitsToNat? (cs : List Char) : Option Nat :=
  if cs.isEmpty then none
  else if cs.all (fun c => c.isDigit) then
    some (cs.foldl (fun n c => 10 * n + (c.toNat - 48)) 0)
  else none

/-- Trailing integers of the existing identifiers matching the stem:
the `LIKE stem%` filter followed by `split('/')`, keeping rows with exactly
five parts whose fifth part parses as an integer. -/
def extractUsedIds (stem : String) (existing : List String) : List Nat :=
  (existing.filter (fun s => strStartsWith s stem)).filterMap (fun s =>
    let parts := splitSlash s.data
    if parts.length == 5 then digitsToNat? (parts.getD 4 []) else none)

/-- The `while sequential_id in used_ids: sequential_id += 1` loop, with
explicit fuel. -/
def firstFreeFrom (used : List Nat) : Nat → Nat → Nat
  | 0, n => n
  | fuel + 1, n => if n ∈ used then firstFreeFrom used fuel (n + 1) else n

/-- Smallest positive integer absent from `used` (the gap-filling scan
starting at 1). -/
def smallestFree (used : List Nat) : Nat :=
  firstFreeFrom used (used.foldr max 0 + 1) 1

/-- Number minting for GRN / SO / SC / PO: month abbreviation stem plus the
smallest free trailing integer. -/
def mintAbbrev (pfx : String) (d : Date) (existing : List String) : String :=
  let stem := dateStemAbbrev pfx d
  stem ++ toString (smallestFree (extractUsedIds stem existing))

/-- Lot number minting (create_inventory_lot, lines 3087-3116): numeric
month stem plus the smallest free trailing integer. -/
def mintLotNumber (d : Date) (existing : List String) : String :=
  let stem := dateStemNumeric "LOT" d
  stem ++ toString (smallestFree (extractUsedIds stem existing))

/-- JO number minting (create_job_order, lines 3034-3048): month
abbreviation stem, sequence number = count of matching rows + 1. -/
def mintJO (d : Date) (existing : List String) : String :=
  let stem := dateStemAbbrev "JO" d
  stem ++ toString ((existing.filter (fun s => strStartsWith s stem)).length + 1)

example : mintAbbrev "GRN" ⟨2025, 7, 20⟩ [] = "GRN/2025/JUL/20/1" := by decide

example :
    mintAbbrev "GRN" ⟨2025, 7, 20⟩ ["GRN/2025/JUL/20/1", "GRN/2025/JUL/20/3"] =
      "GRN/2025/JUL/20/2" := by decide

example : mintLotNumber ⟨2025, 7, 20⟩ [] = "LOT/2025/07/20/1" := by decide

example :
    mintJO ⟨2025, 7, 20⟩ ["JO/2025/JUL/20/1", "JO/2025/JUL/20/3"] =
      "JO/2025/JUL/20/3" := by decide

/-! ### Lot store and transaction log -/

/-- The row of `inventory_lots` with the given id (`SELECT ... WHERE id = %s`). -/
def lookupLot (db : DB) (lotId : Nat) : Option Lot :=
  db.lots.find? (fun l => l.id == lotId)

/-- The SQL `UPDATE inventory_lots SET ... WHERE id = %s`. -/
def updateLot (lots : List Lot) (lotId : Nat) (f : Lot → Lot) : List Lot :=
  lots.map (fun l => if l.id == lotId then f l else l)

/-- Errors of `record_inventory_transaction`. -/
inductive LedgerError
  | lotNotFound
  | insufficientLot (available requested : Int)
deriving Repr, DecidableEq

/-- Success payload of `record_inventory_transaction`. -/
structure TxnReceipt where
  transactionId : Nat
  newBalance : Int
deriving Repr, DecidableEq

/-- record_inventory_transaction (lines 3156-3214): read the lot's current
`available_quantity`, compute the new balance by transaction type (OUTBOUND
fails when the balance is short), insert the transaction row carrying the
new balance, then overwrite the lot's `available_quantity` with it.  The
`reservation_type` column is not in this INSERT, so it is NULL. -/
def record_inventory_transaction (db : DB) (lot_id : Nat) (ttype : TxnType)
    (quantity : Int) (location_id : Nat) (reference_type : Option String)
    (reference_id : Option Nat) : DB × Except LedgerError TxnReceipt :=
  match lookupLot db lot_id with
  | none => (db, .error .lotNotFound)
  | some lot =>
    let current_balance := lot.available_quantity
    let proceed : Int → DB × Except LedgerError TxnReceipt := fun new_balance =>
      let txn : Txn :=
        { lot_id := lot_id, transaction_type := ttype, quantity := quantity
          location_id := location_id, reference_type := reference_type
          reference_id := reference_id, reservation_type := none
          balance_quantity := new_balance }
      let dbT := { db with txns := db.txns ++ [txn] }
      let dbU := { dbT with
        lots := updateLot dbT.lots lot_id (fun l => { l with available_quantity := new_balance }) }
      (dbU, .ok ⟨db.txns.length, new_balance⟩)
    match ttype with
    | .INBOUND => proceed (current_balance + quantity)
    | .OUTBOUND =>
      if current_balance < quantity then
        (db, .error (.insufficientLot current_balance quantity))
      else proceed (current_balance - quantity)
    | .ADJUSTMENT => proceed (current_balance + quantity)

/-- Success payload of `create_inventory_lot`. -/
structure LotReceipt where
  id : Nat
  lotNumber : String
  availableQuantity : Int
deriving Repr, DecidableEq

/-- create_inventory_lot (lines 3084-3154): mint a LOT number, insert the
lot with `available_quantity = weight_kg, committed_quantity = 0`, then call
`record_inventory_transaction` with an INBOUND of `weight_kg` (whose result,
in the source, is not checked).  The dict returned to the caller reports
`weight_kg` as the available quantity. -/
def create_inventory_lot (db : DB) (product_id category_id location_id supplier_id
    grn_item_id : Nat) (quantity_bags : Nat) (weight_kg : Int) :
    DB × LotReceipt :=
  let lot_number := mintLotNumber db.today (db.lots.map (fun l => l.lot_number))
  let lot_id := db.next_lot_id
  let lot : Lot :=
    { id := lot_id, lot_number := lot_number, product_id := product_id
      category_id := category_id, location_id := location_id
      supplier_id := supplier_id, grn_item_id := grn_item_id
      available_quantity := weight_kg, committed_quantity := 0
      created_at := db.clock }
  let db1 := { db with
    lots := db.lots ++ [lot], next_lot_id := lot_id + 1, clock := db.clock + 1 }
  let db2 := (record_inventory_transaction db1 lot_id .INBOUND weight_kg
    location_id (some "GRN") (some grn_item_id)).1
  (db2, ⟨lot_id, lot_number, weight_kg⟩)

/-! ### Allocator (FIFO) -/

/-- Stable insertion of a lot into a list sorted by `created_at`. -/
def insertByCreated (l : Lot) : List Lot → List Lot
  | [] => [l]
  | x :: xs =>
    if x.created_at < l.created_at then x :: insertByCreated l xs
    else l :: x :: xs

/-- The SQL `ORDER BY created_at ASC` over a table scan: a stable sort, so
rows with equal `created_at` keep their storage order (the statement has no
tiebreaker). -/
def fifoSort : List Lot → List Lot
  | [] => []
  | x :: xs => insertByCreated x (fifoSort xs)

/-- One FIFO allocation line. -/
structure Allocation where
  lot_id : Nat
  lot_number : String
  allocated_quantity : Int
  location_id : Nat
deriving Repr, DecidableEq

/-- Errors of `allocate_stock_for_outbound`. -/
inductive AllocError
  | noStock (product_id location_id : Nat)
  | insufficient (available required : Int)
deriving Repr, DecidableEq

/-- The greedy walk of allocate_stock_for_outbound (lines 3239-3266): stop
when the remainder is down to zero; a lot covering the remainder ends the
walk, otherwise its whole available quantity is taken. -/
def greedyAllocate (loc : Nat) : List Lot → Int → List Allocation
  | [], _ => []
  | lot :: rest, remaining =>
    if remaining ≤ 0 then []
    else if lot.available_quantity ≥ remaining then
      [⟨lot.id, lot.lot_number, remaining, loc⟩]
    else
      ⟨lot.id, lot.lot_number, lot.available_quantity, loc⟩ ::
        greedyAllocate loc rest (remaining - lot.available_quantity)

/-- The eligible lots of allocate_stock_for_outbound: same product, same
location, positive available quantity, ordered by `created_at` only. -/
def fifoCandidates (db : DB) (product_id location_id : Nat) : List Lot :=
  fifoSort (db.lots.filter (fun l =>
    l.product_id == product_id && l.location_id == location_id &&
      decide (l.available_quantity > 0)))

/-- Python `sum(lot['available_quantity'] for lot in lots)`. -/
def totalAvail (ls : List Lot) : Int :=
  (ls.map (fun l => l.available_quantity)).sum

/-- Total quantity of an allocation plan. -/
def allocSum (as : List Allocation) : Int :=
  (as.map (fun a => a.allocated_quantity)).sum

/-- allocate_stock_for_outbound (lines 3216-3275): read the eligible lots,
distinguish empty stock from insufficient total, then allocate greedily. -/
def allocate_stock_for_outbound (db : DB) (product_id location_id : Nat)
    (required_quantity : Int) : Except AllocError (List Allocation) :=
  let available_lots := fifoCandidates db product_id location_id
  if available_lots.isEmpty then .error (.noStock product_id location_id)
  else
    let total_available := totalAvail available_lots
    if total_available < required_quantity then
      .error (.insufficient total_available required_quantity)
    else .ok (greedyAllocate location_id available_lots required_quantity)

/-! ### Reserve (any-location) -/

/-- One reservation line of the any-location allocator. -/
structure Reservation where
  lot_id : Nat
  lot_number : String
  location_id : Nat
  allocated_quantity : Int
deriving Repr, DecidableEq

/-- The eligible lots of reserve_stock_for_sales_order_any_location: same
product, positive available quantity, active location, ordered by
`created_at` only. -/
def anyLocationCandidates (db : DB) (product_id : Nat) : List Lot :=
  fifoSort (db.lots.filter (fun l =>
    l.product_id == product_id && decide (l.available_quantity > 0) &&
      db.active_locations.contains l.location_id))

/-- The greedy walk of reserve_stock_for_sales_order_any_location (lines
3308-3324): take `min(available, remaining)` from each lot in turn. -/
def greedyReserve : List Lot → Int → List Reservation
  | [], _ => []
  | lot :: rest, remaining =>
    if remaining ≤ 0 then []
    else
      let a := min lot.available_quantity remaining
      ⟨lot.id, lot.lot_number, lot.location_id, a⟩ :: greedyReserve rest (remaining - a)

/-- The RESERVE-tagged ADJUSTMENT row inserted per reserved lot (lines
3347-3356); `balance` is the available quantity returned by the UPDATE. -/
def mkReserveTxn (so_id : Nat) (r : Reservation) (balance : Int) : Txn :=
  { lot_id := r.lot_id, transaction_type := .ADJUSTMENT
    quantity := r.allocated_quantity, location_id := r.location_id
    reference_type := some "SALES_ORDER", reference_id := some so_id
    reservation_type := some .RESERVE, balance_quantity := balance }

/-- Errors of reserve_stock_for_sales_order_any_location. -/
inductive ReserveError
  | noStock (product_id : Nat)
  | insufficient (product_id : Nat) (required available : Int)
  | updateFailed (lot_number : String)
deriving Repr, DecidableEq

/-- The effect of the reserving UPDATE (lines 3333-3341) on the matched
row: move the allocated quantity from available to committed. -/
def reserveDelta (r : Reservation) (l : Lot) : Lot :=
  { l with
    available_quantity := l.available_quantity - r.allocated_quantity
    committed_quantity := l.committed_quantity + r.allocated_quantity }

/-- The update loop of reserve_stock_for_sales_order_any_location (lines
3327-3356): per reservation, the conditional UPDATE
`available_quantity >= q` moves quantity from available to committed and a
RESERVE transaction is inserted; on a failed predicate the function returns
an error, but the statements already issued stay committed (each ran through
execute_query on its own connection). -/
def applyReservations (so_id : Nat) : DB → List Reservation → DB × Except ReserveError Unit
  | db, [] => (db, .ok ())
  | db, r :: rest =>
    match lookupLot db r.lot_id with
    | some lot =>
      if lot.available_quantity ≥ r.allocated_quantity then
        let newAvail := lot.available_quantity - r.allocated_quantity
        let db1 := { db with lots := updateLot db.lots r.lot_id (reserveDelta r) }
        let db2 := { db1 with txns := db1.txns ++ [mkReserveTxn so_id r newAvail] }
        applyReservations so_id db2 rest
      else (db, .error (.updateFailed r.lot_number))
    | none => (db, .error (.updateFailed r.lot_number))

/-- reserve_stock_for_sales_order_any_location (lines 3277-3364). -/
def reserve_stock_for_sales_order_any_location (db : DB) (so_id product_id : Nat)
    (required_quantity : Int) : DB × Except ReserveError Int :=
  let available_stock := anyLocationCandidates db product_id
  if available_stock.isEmpty then (db, .error (.noStock product_id))
  else
    let total_available := totalAvail available_stock
    if total_available < required_quantity then
      (db, .error (.insufficient product_id required_quantity total_available))
    else
      let reservations := greedyReserve available_stock required_quantity
      let res := applyReservations so_id db reservations
      match res.2 with
      | .ok _ => (res.1, .ok required_quantity)
      | .error e => (res.1, .error e)

/-! ### Unreserve -/

/-- The WHERE clause of the locator query of unreserve_stock_for_sales_order
(line 3373). -/
def isReserveRow (so_id : Nat) (t : Txn) : Bool :=
  t.reference_id == some so_id && t.reservation_type == some ResTag.RESERVE &&
    t.transaction_type == TxnType.ADJUSTMENT && t.reference_type == some "SALES_ORDER"

/-- The same clause for UNRESERVE-tagged rows. -/
def isUnreserveRow (so_id : Nat) (t : Txn) : Bool :=
  t.reference_id == some so_id && t.reservation_type == some ResTag.UNRESERVE &&
    t.transaction_type == TxnType.ADJUSTMENT && t.reference_type == some "SALES_ORDER"

/-- The locator query of unreserve_stock_for_sales_order (lines 3370-3374):
every RESERVE-tagged ADJUSTMENT row referencing the sales order.  It has no
offset check against later UNRESERVE rows. -/
def reserveTxnsFor (db : DB) (so_id : Nat) : List Txn :=
  db.txns.filter (isReserveRow so_id)

/-- Observation of the log: the UNRESERVE-tagged ADJUSTMENT rows referencing
a sales order. -/
def unreserveTxnsFor (db : DB) (so_id : Nat) : List Txn :=
  db.txns.filter (isUnreserveRow so_id)

/-- The UNRESERVE-tagged ADJUSTMENT row inserted per released lot (lines
3397-3406).  The source passes the updated row's id -- the lot id -- in the
location_id position of the VALUES tuple. -/
def mkUnreserveTxn (so_id lot_id : Nat) (q balance : Int) : Txn :=
  { lot_id := lot_id, transaction_type := .ADJUSTMENT, quantity := q
    location_id := lot_id
    reference_type := some "SALES_ORDER", reference_id := some so_id
    reservation_type := some .UNRESERVE, balance_quantity := balance }

/-- The effect of the releasing UPDATE (lines 3385-3393) on the matched
row: move the quantity from committed back to available. -/
def releaseDelta (q : Int) (l : Lot) : Lot :=
  { l with
    available_quantity := l.available_quantity + q
    committed_quantity := l.committed_quantity - q }

/-- The release loop of unreserve_stock_for_sales_order (lines 3380-3408):
per located RESERVE row, the conditional UPDATE `committed_quantity >= q`
moves the quantity back to available; on a failed predicate the row is
silently skipped. -/
def unreserveLoop (so_id : Nat) : DB → List Txn → Int → DB × Int
  | db, [], total => (db, total)
  | db, t :: rest, total =>
    match lookupLot db t.lot_id with
    | some lot =>
      if lot.committed_quantity ≥ t.quantity then
        let newAvail := lot.available_quantity + t.quantity
        let db1 := { db with lots := updateLot db.lots t.lot_id (releaseDelta t.quantity) }
        let db2 := { db1 with txns := db1.txns ++ [mkUnreserveTxn so_id t.lot_id t.quantity newAvail] }
        unreserveLoop so_id db2 rest (total + t.quantity)
      else unreserveLoop so_id db rest total
    | none => unreserveLoop so_id db rest total

/-- Result of unreserve_stock_for_sales_order (no reservation rows is a
soft message, not an error). -/
inductive UnreserveResult
  | noReservations
  | released (total : Int)
deriving Repr, DecidableEq

/-- unreserve_stock_for_sales_order (lines 3366-3415). -/
def unreserve_stock_for_sales_order (db : DB) (so_id : Nat) : DB × UnreserveResult :=
  let rts := reserveTxnsFor db so_id
  if rts.isEmpty then (db, .noReservations)
  else
    let res := unreserveLoop so_id db rts 0
    (res.1, .released res.2)

/-! ### Ledger coordinator: sales order creation (Reserve) -/

/-- A line item of a sales order creation request. -/
structure SOItemInput where
  category_id : Nat
  product_id : Nat
  quantity_bags : Nat
  weight_kg : Int
deriving Repr, DecidableEq

/-- Errors of create_sales_order. -/
inductive SOError
  | noActiveLocations
  | reservationFailed (failed_products : List Nat)
deriving Repr, DecidableEq

/-- Success payload of create_sales_order. -/
structure SOReceipt where
  id : Nat
  soNumber : String
  totalReserved : Int
deriving Repr, DecidableEq

/-- The per-item loop of create_sales_order (lines 2264-2284): each item is
reserved through execute_query (committing immediately on its own
connection); failures are collected per product. -/
def reserveItems (so_id : Nat) : DB → List SOItemInput → DB × List Nat × Int
  | db, [] => (db, [], 0)
  | db, it :: rest =>
    let r := reserve_stock_for_sales_order_any_location db so_id it.product_id it.weight_kg
    let acc := reserveItems so_id r.1 rest
    match r.2 with
    | .error _ => (acc.1, it.product_id :: acc.2.1, acc.2.2)
    | .ok _ => (acc.1, acc.2.1, acc.2.2 + it.weight_kg)

/-- create_sales_order (lines 2189-2313).  The sales_orders and
sales_order_items INSERTs run on a private cursor whose transaction is the
only thing the rollback at line 2288 undoes; the stock reservations ran
through execute_query and stay committed even when the order is rolled
back.  The id handed out by the INSERT is consumed either way. -/
def create_sales_order (db : DB) (customer_id : Nat) (items : List SOItemInput)
    (location_id : Option Nat) : DB × Except SOError SOReceipt :=
  let locOk :=
    match location_id with
    | some _ => true
    | none => !db.active_locations.isEmpty
  if !locOk then (db, .error .noActiveLocations)
  else
    let so_number := mintAbbrev "SO" db.today (db.sales_orders.map (fun s => s.so_number))
    let so_id := db.next_so_id
    let r := reserveItems so_id db items
    let db1 := { r.1 with next_so_id := so_id + 1 }
    if r.2.1.isEmpty then
      ({ db1 with
          sales_orders := db1.sales_orders ++
            [⟨so_id, so_number, customer_id, "New", false, false⟩]
          sales_order_items := db1.sales_order_items ++
            items.map (fun it =>
              ⟨so_id, it.category_id, it.product_id, it.quantity_bags, it.weight_kg⟩) },
        .ok ⟨so_id, so_number, r.2.2⟩)
    else (db1, .error (.reservationFailed r.2.1))

/-! ### Ledger coordinator: sales challan creation (Outbound) and conversion -/

/-- A line item of a sales challan creation request. -/
structure ChallanItemInput where
  category_id : Nat
  product_id : Nat
  quantity_bags : Nat
  weight_kg : Int
deriving Repr, DecidableEq

/-- Success payload of create_sales_challan. -/
structure ChallanReceipt where
  id : Nat
  scNumber : String
deriving Repr, DecidableEq

/-- First-occurrence deduplication, modelling SELECT DISTINCT over the scan
order of the join. -/
def dedupKeepFirst : List Nat → List Nat
  | [] => []
  | x :: xs => x :: (dedupKeepFirst xs).filter (fun y => y != x)

/-- The reserved-location query of create_sales_challan (lines 2600-2609):
distinct locations of the lots carrying RESERVE rows of the source order
for this product. -/
def reservedLocations (db : DB) (so_id product_id : Nat) : List Nat :=
  dedupKeepFirst ((db.txns.filter (fun t =>
    t.reference_type == some "SALES_ORDER" && t.reference_id == some so_id &&
      t.reservation_type == some ResTag.RESERVE)).filterMap (fun t =>
    match lookupLot db t.lot_id with
    | some l => if l.product_id == product_id then some l.location_id else none
    | none => none))

/-- The per-allocation OUTBOUND loop of create_sales_challan (lines
2628-2644); a failed record_inventory_transaction only logs a warning. -/
def recordAllocations (challan_item_id : Nat) : DB → List Allocation → DB
  | db, [] => db
  | db, a :: rest =>
    let db1 := (record_inventory_transaction db a.lot_id .OUTBOUND
      a.allocated_quantity a.location_id (some "SALES_CHALLAN") (some challan_item_id)).1
    recordAllocations challan_item_id db1 rest

/-- The sales_challan_items INSERT of one item (lines 2583-2589), returning
the new item id. -/
def challanItemInsert (db : DB) (sc_id : Nat) (it : ChallanItemInput) : DB × Nat :=
  let item_id := db.next_sc_item_id
  ({ db with
     sales_challan_items := db.sales_challan_items ++
       [⟨item_id, sc_id, it.category_id, it.product_id, it.quantity_bags, it.weight_kg, none⟩]
     next_sc_item_id := item_id + 1 }, item_id)

/-- The dispatch location of one item (lines 2597-2613): for a conversion,
the first reserved location of the product when one exists, otherwise the
current value of the Python variable `location_id`. -/
def challanItemLoc (db : DB) (source_so : Option Nat) (product_id location_id : Nat) : Nat :=
  match source_so with
  | some so =>
    match reservedLocations db so product_id with
    | [] => location_id
    | l :: _ => l
  | none => location_id

/-- The UPDATE linking the first allocation's lot id onto the challan item
(lines 2646-2654). -/
def linkFirstAllocation (db : DB) (item_id : Nat) (allocs : List Allocation) : DB :=
  match allocs with
  | [] => db
  | a :: _ => { db with
      sales_challan_items := db.sales_challan_items.map (fun ci =>
        if ci.id == item_id then { ci with inventory_transaction_id := some a.lot_id }
        else ci) }

/-- The per-item loop of create_sales_challan (lines 2581-2654).  For a
conversion, the first reserved location, when one exists, is written into
the Python variable `location_id` and thus also used by later items; an
allocation failure skips the item (`continue`), leaving it undeducted. -/
def processChallanItems (source_so : Option Nat) (sc_id : Nat) :
    DB → Nat → List ChallanItemInput → DB
  | db, _, [] => db
  | db, location_id, it :: rest =>
    let ins := challanItemInsert db sc_id it
    let loc := challanItemLoc ins.1 source_so it.product_id location_id
    match allocate_stock_for_outbound ins.1 it.product_id loc it.weight_kg with
    | .error _ => processChallanItems source_so sc_id ins.1 loc rest
    | .ok allocs =>
      processChallanItems source_so sc_id
        (linkFirstAllocation (recordAllocations ins.2 ins.1 allocs) ins.2 allocs) loc rest

/-- create_sales_challan (lines 2517-2660): mint the SC number, insert the
challan row, release the source order's reservations when converting, then
walk the items.  In the model, store statements cannot raise, so the
function always returns a receipt (every failure path in the source is a
persistence exception). -/
def create_sales_challan (db : DB) (customer_id : Nat) (items : List ChallanItemInput)
    (location_id : Nat) (source_sales_order_id : Option Nat) : DB × ChallanReceipt :=
  let sc_number := mintAbbrev "SC" db.today (db.sales_challans.map (fun c => c.sc_number))
  let sc_id := db.next_sc_id
  let db0 := { db with
    sales_challans := db.sales_challans ++ [⟨sc_id, sc_number, customer_id⟩]
    next_sc_id := sc_id + 1 }
  let db1 :=
    match source_sales_order_id with
    | some so => (unreserve_stock_for_sales_order db0 so).1
    | none => db0
  (processChallanItems source_sales_order_id sc_id db1 location_id items, ⟨sc_id, sc_number⟩)

/-- Errors of convert_sales_order_to_challan. -/
inductive ConvertError
  | notFoundOrConverted
  | noItems
deriving Repr, DecidableEq

/-- Success payload of convert_sales_order_to_challan. -/
structure ConvertReceipt where
  so_id : Nat
  sc_id : Nat
  sc_number : String
deriving Repr, DecidableEq

/-- Key translation of a sales order item for challan creation (lines
2944-2954). -/
def toChallanInput (i : SalesOrderItem) : ChallanItemInput :=
  ⟨i.category_id, i.product_id, i.quantity_bags, i.weight_kg⟩

/-- convert_sales_order_to_challan (lines 2925-2997): the guard requires
`is_deleted = FALSE AND converted_to_challan = FALSE` (the order's status is
not consulted), then the challan is created with `location_id = 1` and the
source order reference, and the order is flipped to converted / Delivered. -/
def convert_sales_order_to_challan (db : DB) (so_id : Nat) :
    DB × Except ConvertError ConvertReceipt :=
  match db.sales_orders.find? (fun so =>
      so.id == so_id && !so.is_deleted && !so.converted_to_challan) with
  | none => (db, .error .notFoundOrConverted)
  | some so =>
    let items := db.sales_order_items.filter (fun i => i.so_id == so_id)
    if items.isEmpty then (db, .error .noItems)
    else
      let res := create_sales_challan db so.customer_id (items.map toChallanInput) 1 (some so_id)
      let db2 := { res.1 with
        sales_orders := res.1.sales_orders.map (fun s =>
          if s.id == so_id then { s with converted_to_challan := true, status := "Delivered" }
          else s) }
      (db2, .ok ⟨so_id, res.2.id, res.2.scNumber⟩)

/-! ### Stock listing -/

/-- get_stock_levels (lines 3417-3453): lots with a positive available or
committed counter, optionally filtered by location and product, ordered by
`created_at`. -/
def get_stock_levels (db : DB) (location_id product_id : Option Nat) : List Lot :=
  fifoSort (db.lots.filter (fun l =>
    (decide (l.available_quantity > 0) || decide (l.committed_quantity > 0)) &&
      (match location_id with | some loc => l.location_id == loc | none => true) &&
      (match product_id with | some p => l.product_id == p | none => true)))

/-! ### Conservation bookkeeping (spec invariant I2) -/

/-- Total `available + committed` mass of the lots with the given id. -/
def lotMass (lots : List Lot) (i : Nat) : Int :=
  ((lots.filter (fun l => l.id == i)).map
    (fun l => l.available_quantity + l.committed_quantity)).sum

/-- Contribution of one transaction to a lot's net flow: INBOUND adds its
quantity, OUTBOUND subtracts it, ADJUSTMENT (RESERVE/UNRESERVE) is
zero-sum on the pair. -/
def flowOf (t : Txn) : Int :=
  match t.transaction_type with
  | .INBOUND => t.quantity
  | .OUTBOUND => -t.quantity
  | .ADJUSTMENT => 0

/-- Net recorded flow of a lot: INBOUND minus OUTBOUND quantities. -/
def netFlow (txns : List Txn) (i : Nat) : Int :=
  ((txns.filter (fun t => t.lot_id == i)).map flowOf).sum

/-- Conservation residual of a lot: `available + committed` minus the net
recorded flow.  Invariant I2 of the spec says the residual is zero. -/
def residual (db : DB) (i : Nat) : Int :=
  lotMass db.lots i - netFlow db.txns i

/-- Projection of a reservation-tagged transaction onto the data the
release loop consumes. -/
def tagProj (t : Txn) : Nat × Int :=
  (t.lot_id, t.quantity)

/-! ## General lemmas about the embedded operations -/

theorem insertByCreated_perm (l : Lot) (ls : List Lot) :
    List.Perm (insertByCreated l ls) (l :: ls) := by
  induction ls with
  | nil => exact List.Perm.refl _
  | cons x xs ih =>
    by_cases h : x.created_at < l.created_at
    · have e : insertByCreated l (x :: xs) = x :: insertByCreated l xs := by
        simp [insertByCreated, h]
      rw [e]
      exact (ih.cons x).trans (List.Perm.swap l x xs)
    · have e : insertByCreated l (x :: xs) = l :: x :: xs := by
        simp [insertByCreated, h]
      rw [e]

theorem fifoSort_perm (ls : List Lot) : List.Perm (fifoSort ls) ls := by
  induction ls with
  | nil => exact List.Perm.refl _
  | cons x xs ih => exact (insertByCreated_perm x (fifoSort xs)).trans (ih.cons x)

theorem le_foldr_max (k : Nat) (l : List Nat) (h : k ∈ l) : k ≤ l.foldr max 0 := by
  induction l with
  | nil => cases h
  | cons x xs ih =>
    rcases List.mem_cons.mp h with h1 | h1
    · subst h1
      exact le_max_left _ _
    · exact le_trans (ih h1) (le_max_right _ _)

theorem firstFreeFrom_spec (used : List Nat) :
    ∀ fuel n, (∀ k ∈ used, k < n + fuel) →
      firstFreeFrom used fuel n ∉ used ∧ n ≤ firstFreeFrom used fuel n ∧
        ∀ m, n ≤ m → m < firstFreeFrom used fuel n → m ∈ used := by
  intro fuel
  induction fuel with
  | zero =>
    intro n h
    have e : firstFreeFrom used 0 n = n := rfl
    rw [e]
    exact ⟨fun hn => absurd (h n hn) (by omega), le_refl n, fun m hm1 hm2 => by omega⟩
  | succ f ih =>
    intro n h
    by_cases hn : n ∈ used
    · have e : firstFreeFrom used (f + 1) n = firstFreeFrom used f (n + 1) := by
        simp [firstFreeFrom, hn]
      have h2 : ∀ k ∈ used, k < (n + 1) + f := fun k hk => by
        have := h k hk
        omega
      obtain ⟨g1, g2, g3⟩ := ih (n + 1) h2
      rw [e]
      refine ⟨g1, by omega, fun m hm1 hm2 => ?_⟩
      rcases Nat.eq_or_lt_of_le hm1 with h4 | h4
      · exact h4 ▸ hn
      · exact g3 m (by omega) hm2
    · have e : firstFreeFrom used (f + 1) n = n := by
        simp [firstFreeFrom, hn]
      rw [e]
      exact ⟨hn, le_refl n, fun m hm1 hm2 => by omega⟩

theorem smallestFree_spec (used : List Nat) :
    smallestFree used ∉ used ∧ 1 ≤ smallestFree used ∧
      ∀ m, 1 ≤ m → m < smallestFree used → m ∈ used := by
  have h : ∀ k ∈ used, k < 1 + (used.foldr max 0 + 1) := by
    intro k hk
    have := le_foldr_max k used hk
    omega
  exact firstFreeFrom_spec used (used.foldr max 0 + 1) 1 h

theorem insertByCreated_sorted {l : Lot} {ls : List Lot}
    (h : ls.Pairwise (fun a b => a.created_at ≤ b.created_at)) :
    (insertByCreated l ls).Pairwise (fun a b => a.created_at ≤ b.created_at) := by
  induction ls with
  | nil => simp [insertByCreated]
  | cons x xs ih =>
    rcases List.pairwise_cons.mp h with ⟨hx, hxs⟩
    by_cases hlt : x.created_at < l.created_at
    · have e : insertByCreated l (x :: xs) = x :: insertByCreated l xs := by
        simp [insertByCreated, hlt]
      rw [e]
      apply List.pairwise_cons.mpr
      refine ⟨fun y hy => ?_, ih hxs⟩
      rcases List.mem_cons.mp ((insertByCreated_perm l xs).mem_iff.mp hy) with h1 | h1
      · rw [h1]
        exact le_of_lt hlt
      · exact hx y h1
    · have e : insertByCreated l (x :: xs) = l :: x :: xs := by
        simp [insertByCreated, hlt]
      rw [e]
      push_neg at hlt
      apply List.pairwise_cons.mpr
      refine ⟨fun y hy => ?_, h⟩
      rcases List.mem_cons.mp hy with h1 | h1
      · rw [h1]
        exact hlt
      · exact le_trans hlt (hx y h1)

theorem fifoSort_sorted (ls : List Lot) :
    (fifoSort ls).Pairwise (fun a b => a.created_at ≤ b.created_at) := by
  induction ls with
  | nil => simp [fifoSort]
  | cons x xs ih => exact insertByCreated_sorted ih

theorem greedyAllocate_cons (loc : Nat) (lot : Lot) (rest : List Lot) (req : Int) :
    greedyAllocate loc (lot :: rest) req =
      if req ≤ 0 then []
      else if lot.available_quantity ≥ req then [⟨lot.id, lot.lot_number, req, loc⟩]
      else ⟨lot.id, lot.lot_number, lot.available_quantity, loc⟩ ::
        greedyAllocate loc rest (req - lot.available_quantity) := rfl

theorem totalAvail_cons (l : Lot) (ls : List Lot) :
    totalAvail (l :: ls) = l.available_quantity + totalAvail ls := by
  simp [totalAvail]

theorem greedyAllocate_sum (loc : Nat) :
    ∀ (ls : List Lot) (req : Int), 0 ≤ req → req ≤ totalAvail ls →
      allocSum (greedyAllocate loc ls req) = req := by
  intro ls
  induction ls with
  | nil =>
    intro req h0 h1
    simp only [totalAvail, List.map_nil, List.sum_nil] at h1
    have : req = 0 := le_antisymm h1 h0
    simp [greedyAllocate, allocSum, this]
  | cons lot rest ih =>
    intro req h0 h1
    rw [greedyAllocate_cons]
    by_cases hr : req ≤ 0
    · have hz : req = 0 := le_antisymm hr h0
      simp [hr, allocSum, hz]
    · rw [if_neg hr]
      by_cases hc : lot.available_quantity ≥ req
      · rw [if_pos hc]
        simp [allocSum]
      · rw [if_neg hc]
        push_neg at hc
        rw [totalAvail_cons] at h1
        have h2 := ih (req - lot.available_quantity) (by omega) (by omega)
        simp only [allocSum, List.map_cons, List.sum_cons] at h2 ⊢
        omega

theorem greedyReserve_cons (lot : Lot) (rest : List Lot) (req : Int) :
    greedyReserve (lot :: rest) req =
      if req ≤ 0 then []
      else
        ⟨lot.id, lot.lot_number, lot.location_id, min lot.available_quantity req⟩ ::
          greedyReserve rest (req - min lot.available_quantity req) := rfl

/-- Total quantity of a reservation plan. -/
def resSum (rs : List Reservation) : Int :=
  (rs.map (fun r => r.allocated_quantity)).sum

theorem greedyReserve_zero (ls : List Lot) : greedyReserve ls 0 = [] := by
  cases ls with
  | nil => rfl
  | cons lot rest => simp [greedyReserve_cons]

theorem greedyReserve_sum :
    ∀ (ls : List Lot) (req : Int), 0 ≤ req → req ≤ totalAvail ls →
      resSum (greedyReserve ls req) = req := by
  intro ls
  induction ls with
  | nil =>
    intro req h0 h1
    simp only [totalAvail, List.map_nil, List.sum_nil] at h1
    have : req = 0 := le_antisymm h1 h0
    simp [greedyReserve, resSum, this]
  | cons lot rest ih =>
    intro req h0 h1
    rw [greedyReserve_cons]
    by_cases hr : req ≤ 0
    · have hz : req = 0 := le_antisymm hr h0
      simp [hr, resSum, hz]
    · rw [if_neg hr]
      rcases le_or_lt lot.available_quantity req with hc | hc
      · rw [min_eq_left hc, totalAvail_cons] at *
        have h2 := ih (req - lot.available_quantity) (by omega) (by omega)
        simp only [resSum, List.map_cons, List.sum_cons, min_eq_left hc] at h2 ⊢
        omega
      · have hm : min lot.available_quantity req = req := min_eq_right (le_of_lt hc)
        rw [hm]
        simp [resSum, greedyReserve_zero]

/-- Uniqueness of lot ids: every real store satisfies it (`inventory_lots.id`
is a primary key), and every modelled operation preserves it. -/
def NodupLots (db : DB) : Prop :=
  (db.lots.map (fun l => l.id)).Nodup

theorem lotMass_cons (y : Lot) (ys : List Lot) (i : Nat) :
    lotMass (y :: ys) i =
      (if y.id = i then y.available_quantity + y.committed_quantity else 0) + lotMass ys i := by
  by_cases h : y.id = i <;> simp [lotMass, List.filter_cons, h]

theorem netFlow_append (txns ts : List Txn) (i : Nat) :
    netFlow (txns ++ ts) i = netFlow txns i + netFlow ts i := by
  simp [netFlow, List.filter_append]

theorem netFlow_single (t : Txn) (i : Nat) :
    netFlow [t] i = if t.lot_id = i then flowOf t else 0 := by
  by_cases h : t.lot_id = i <;> simp [netFlow, List.filter_cons, h]

theorem updateLot_cons (x : Lot) (xs : List Lot) (j : Nat) (f : Lot → Lot) :
    updateLot (x :: xs) j f =
      (if (x.id == j) = true then f x else x) :: updateLot xs j f := rfl

theorem updateLot_map_id (lots : List Lot) (j : Nat) (f : Lot → Lot)
    (hid : ∀ l, (f l).id = l.id) :
    (updateLot lots j f).map (fun l => l.id) = lots.map (fun l => l.id) := by
  induction lots with
  | nil => rfl
  | cons x xs ih =>
    rw [updateLot_cons, List.map_cons, List.map_cons, ih]
    by_cases hx : (x.id == j) = true
    · rw [if_pos hx, hid x]
    · rw [if_neg hx]

theorem updateLot_not_mem (lots : List Lot) (j : Nat) (f : Lot → Lot)
    (h : ∀ l ∈ lots, l.id ≠ j) : updateLot lots j f = lots := by
  induction lots with
  | nil => rfl
  | cons x xs ih =>
    have hx : ¬ (x.id == j) = true := by
      simp only [beq_iff_eq]
      exact h x (List.mem_cons_self x xs)
    rw [updateLot_cons, if_neg hx, ih (fun l hl => h l (List.mem_cons_of_mem x hl))]

theorem lotMass_updateLot_massPreserving (lots : List Lot) (j : Nat) (f : Lot → Lot)
    (hid : ∀ l, (f l).id = l.id)
    (hm : ∀ l, (f l).available_quantity + (f l).committed_quantity =
      l.available_quantity + l.committed_quantity) (i : Nat) :
    lotMass (updateLot lots j f) i = lotMass lots i := by
  induction lots with
  | nil => rfl
  | cons x xs ih =>
    rw [updateLot_cons]
    by_cases hx : (x.id == j) = true
    · rw [if_pos hx, lotMass_cons, lotMass_cons, hid x]
      by_cases hi : x.id = i
      · rw [if_pos hi, if_pos hi, hm x, ih]
      · rw [if_neg hi, if_neg hi, ih]
    · rw [if_neg hx, lotMass_cons, lotMass_cons, ih]

theorem lotMass_update_abs (lots : List Lot) (j : Nat) (nb : Int) (i : Nat)
    (hnd : (lots.map (fun l => l.id)).Nodup) (lot : Lot)
    (hfind : lots.find? (fun l => l.id == j) = some lot) :
    lotMass (updateLot lots j (fun l => { l with available_quantity := nb })) i =
      lotMass lots i + (if j = i then nb - lot.available_quantity else 0) := by
  induction lots with
  | nil => simp at hfind
  | cons x xs ih =>
    rw [List.map_cons, List.nodup_cons] at hnd
    by_cases hx : (x.id == j) = true
    · rw [List.find?_cons_of_pos (p := fun (l : Lot) => l.id == j) xs hx] at hfind
      have hxj : x.id = j := by simpa using hx
      have hlot : lot = x := (Option.some.inj hfind).symm
      subst hlot
      have hxs : ∀ l ∈ xs, l.id ≠ j := by
        intro l hl hlj
        apply hnd.1
        have hm : l.id ∈ xs.map (fun l => l.id) := List.mem_map_of_mem (fun l => l.id) hl
        rw [hlj, ← hxj] at hm
        exact hm
      have e1 : updateLot (lot :: xs) j (fun l => { l with available_quantity := nb }) =
          { lot with available_quantity := nb } :: xs := by
        rw [updateLot_cons, if_pos hx, updateLot_not_mem xs j _ hxs]
      rw [e1, lotMass_cons, lotMass_cons]
      dsimp only
      by_cases hi : lot.id = i
      · have hji : j = i := by
          rw [← hxj]
          exact hi
        rw [if_pos hi, if_pos hi, if_pos hji]
        ring
      · have hji : ¬ j = i := fun hc => hi (hxj.trans hc)
        rw [if_neg hi, if_neg hi, if_neg hji]
        ring
    · rw [List.find?_cons_of_neg (p := fun (l : Lot) => l.id == j) xs hx] at hfind
      have hih := ih hnd.2 hfind
      rw [updateLot_cons, if_neg hx, lotMass_cons, lotMass_cons, hih]
      ring

theorem unreserveLoop_cons (so_id : Nat) (db : DB) (t : Txn) (rest : List Txn) (tot : Int) :
    unreserveLoop so_id db (t :: rest) tot =
      match lookupLot db t.lot_id with
      | some lot =>
        if lot.committed_quantity ≥ t.quantity then
          unreserveLoop so_id
            { db with
              lots := updateLot db.lots t.lot_id (releaseDelta t.quantity)
              txns := db.txns ++
                [mkUnreserveTxn so_id t.lot_id t.quantity (lot.available_quantity + t.quantity)] }
            rest (tot + t.quantity)
        else unreserveLoop so_id db rest tot
      | none => unreserveLoop so_id db rest tot := rfl

theorem record_outbound_effects (db : DB) (lot_id : Nat) (q : Int) (loc : Nat)
    (rt : Option String) (ri : Option Nat) (hnd : NodupLots db) :
    (∀ i, residual (record_inventory_transaction db lot_id .OUTBOUND q loc rt ri).1 i =
        residual db i) ∧
    (record_inventory_transaction db lot_id .OUTBOUND q loc rt ri).1.lots.map (fun l => l.id) =
      db.lots.map (fun l => l.id) := by
  unfold record_inventory_transaction
  cases hl : lookupLot db lot_id with
  | none => exact ⟨fun i => rfl, rfl⟩
  | some lot =>
    dsimp only
    by_cases hq : lot.available_quantity < q
    · rw [if_pos hq]
      exact ⟨fun i => rfl, rfl⟩
    · rw [if_neg hq]
      dsimp only
      constructor
      · intro i
        unfold residual
        dsimp only
        rw [netFlow_append, netFlow_single]
        have hfind : db.lots.find? (fun l => l.id == lot_id) = some lot := hl
        rw [lotMass_update_abs db.lots lot_id (lot.available_quantity - q) i hnd lot hfind]
        dsimp only [flowOf]
        by_cases hi : lot_id = i
        · rw [if_pos hi, if_pos hi]
          ring
        · rw [if_neg hi, if_neg hi]
          ring
      · exact updateLot_map_id db.lots lot_id _ (fun l => rfl)

theorem recordAllocations_effects (item : Nat) :
    ∀ (as : List Allocation) (db : DB), NodupLots db →
      (∀ i, residual (recordAllocations item db as) i = residual db i) ∧
      (recordAllocations item db as).lots.map (fun l => l.id) =
        db.lots.map (fun l => l.id) := by
  intro as
  induction as with
  | nil => intro db hnd; exact ⟨fun i => rfl, rfl⟩
  | cons a rest ih =>
    intro db hnd
    have h1 := record_outbound_effects db a.lot_id a.allocated_quantity a.location_id
      (some "SALES_CHALLAN") (some item) hnd
    have hnd1 : NodupLots (record_inventory_transaction db a.lot_id .OUTBOUND
        a.allocated_quantity a.location_id (some "SALES_CHALLAN") (some item)).1 := by
      unfold NodupLots
      rw [h1.2]
      exact hnd
    have h2 := ih _ hnd1
    exact ⟨fun i => (h2.1 i).trans (h1.1 i), h2.2.trans h1.2⟩

theorem unreserveLoop_effects (so : Nat) :
    ∀ (ts : List Txn) (db : DB) (tot : Int),
      (∀ i, residual (unreserveLoop so db ts tot).1 i = residual db i) ∧
      (unreserveLoop so db ts tot).1.lots.map (fun l => l.id) =
        db.lots.map (fun l => l.id) := by
  intro ts
  induction ts with
  | nil => intro db tot; exact ⟨fun i => rfl, rfl⟩
  | cons t rest ih =>
    intro db tot
    rw [unreserveLoop_cons]
    cases hl : lookupLot db t.lot_id with
    | none => exact ih db tot
    | some lot =>
      dsimp only
      by_cases hc : lot.committed_quantity ≥ t.quantity
      · rw [if_pos hc]
        have h2 := ih { db with
          lots := updateLot db.lots t.lot_id (releaseDelta t.quantity)
          txns := db.txns ++
            [mkUnreserveTxn so t.lot_id t.quantity (lot.available_quantity + t.quantity)] }
          (tot + t.quantity)
        have hres : ∀ i, residual { db with
            lots := updateLot db.lots t.lot_id (releaseDelta t.quantity)
            txns := db.txns ++
              [mkUnreserveTxn so t.lot_id t.quantity (lot.available_quantity + t.quantity)] } i =
            residual db i := by
          intro i
          unfold residual
          dsimp only
          rw [netFlow_append, netFlow_single]
          rw [lotMass_updateLot_massPreserving db.lots t.lot_id (releaseDelta t.quantity)
            (fun l => rfl) (fun l => by dsimp only [releaseDelta]; ring) i]
          dsimp only [mkUnreserveTxn, flowOf]
          simp only [ite_self]
          ring
        have hmap : (updateLot db.lots t.lot_id (releaseDelta t.quantity)).map (fun l => l.id) =
            db.lots.map (fun l => l.id) :=
          updateLot_map_id db.lots t.lot_id _ (fun l => rfl)
        exact ⟨fun i => (h2.1 i).trans (hres i), h2.2.trans hmap⟩
      · rw [if_neg hc]
        exact ih db tot

theorem unreserve_effects (db : DB) (so : Nat) :
    (∀ i, residual (unreserve_stock_for_sales_order db so).1 i = residual db i) ∧
    (unreserve_stock_for_sales_order db so).1.lots.map (fun l => l.id) =
      db.lots.map (fun l => l.id) := by
  unfold unreserve_stock_for_sales_order
  by_cases he : (reserveTxnsFor db so).isEmpty = true
  · rw [if_pos he]
    exact ⟨fun i => rfl, rfl⟩
  · rw [if_neg he]
    exact unreserveLoop_effects so (reserveTxnsFor db so) db 0

theorem linkFirstAllocation_lots (db : DB) (item : Nat) (as : List Allocation) :
    (linkFirstAllocation db item as).lots = db.lots ∧
      (linkFirstAllocation db item as).txns = db.txns := by
  cases as with
  | nil => exact ⟨rfl, rfl⟩
  | cons a rest => exact ⟨rfl, rfl⟩

theorem processChallanItems_cons (src : Option Nat) (sc : Nat) (db : DB) (loc : Nat)
    (it : ChallanItemInput) (rest : List ChallanItemInput) :
    processChallanItems src sc db loc (it :: rest) =
      match allocate_stock_for_outbound (challanItemInsert db sc it).1 it.product_id
          (challanItemLoc (challanItemInsert db sc it).1 src it.product_id loc) it.weight_kg with
      | .error _ => processChallanItems src sc (challanItemInsert db sc it).1
          (challanItemLoc (challanItemInsert db sc it).1 src it.product_id loc) rest
      | .ok allocs => processChallanItems src sc
          (linkFirstAllocation
            (recordAllocations (challanItemInsert db sc it).2 (challanItemInsert db sc it).1 allocs)
            (challanItemInsert db sc it).2 allocs)
          (challanItemLoc (challanItemInsert db sc it).1 src it.product_id loc) rest := rfl

theorem processChallanItems_effects (src : Option Nat) (sc : Nat) :
    ∀ (items : List ChallanItemInput) (db : DB) (loc : Nat), NodupLots db →
      (∀ i, residual (processChallanItems src sc db loc items) i = residual db i) ∧
      (processChallanItems src sc db loc items).lots.map (fun l => l.id) =
        db.lots.map (fun l => l.id) := by
  intro items
  induction items with
  | nil => intro db loc hnd; exact ⟨fun i => rfl, rfl⟩
  | cons it rest ih =>
    intro db loc hnd
    rw [processChallanItems_cons]
    have hnd0 : NodupLots (challanItemInsert db sc it).1 := hnd
    cases halloc : allocate_stock_for_outbound (challanItemInsert db sc it).1 it.product_id
        (challanItemLoc (challanItemInsert db sc it).1 src it.product_id loc) it.weight_kg with
    | error e =>
      have h2 := ih (challanItemInsert db sc it).1
        (challanItemLoc (challanItemInsert db sc it).1 src it.product_id loc) hnd0
      exact ⟨fun i => h2.1 i, h2.2⟩
    | ok allocs =>
      have hrec := recordAllocations_effects (challanItemInsert db sc it).2 allocs
        (challanItemInsert db sc it).1 hnd0
      have hlink := linkFirstAllocation_lots
        (recordAllocations (challanItemInsert db sc it).2 (challanItemInsert db sc it).1 allocs)
        (challanItemInsert db sc it).2 allocs
      have hndL : NodupLots (linkFirstAllocation
          (recordAllocations (challanItemInsert db sc it).2 (challanItemInsert db sc it).1 allocs)
          (challanItemInsert db sc it).2 allocs) := by
        unfold NodupLots
        rw [hlink.1, hrec.2]
        exact hnd
      have h2 := ih _ (challanItemLoc (challanItemInsert db sc it).1 src it.product_id loc) hndL
      refine ⟨fun i => ?_, ?_⟩
      · have e1 : residual (linkFirstAllocation
            (recordAllocations (challanItemInsert db sc it).2 (challanItemInsert db sc it).1 allocs)
            (challanItemInsert db sc it).2 allocs) i =
            residual (recordAllocations (challanItemInsert db sc it).2
              (challanItemInsert db sc it).1 allocs) i := by
          unfold residual
          rw [hlink.1, hlink.2]
        exact (h2.1 i).trans (e1.trans (hrec.1 i))
      · rw [h2.2, hlink.1, hrec.2]
        rfl

theorem create_sales_challan_effects (db : DB) (customer : Nat)
    (items : List ChallanItemInput) (loc : Nat) (src : Option Nat) (hnd : NodupLots db) :
    (∀ i, residual (create_sales_challan db customer items loc src).1 i = residual db i) ∧
    (create_sales_challan db customer items loc src).1.lots.map (fun l => l.id) =
      db.lots.map (fun l => l.id) := by
  cases src with
  | none =>
    have h := processChallanItems_effects none db.next_sc_id items
      { db with
        sales_challans := db.sales_challans ++
          [⟨db.next_sc_id, mintAbbrev "SC" db.today (db.sales_challans.map (fun c => c.sc_number)),
            customer⟩]
        next_sc_id := db.next_sc_id + 1 } loc hnd
    exact ⟨fun i => h.1 i, h.2⟩
  | some so =>
    have hu := unreserve_effects
      { db with
        sales_challans := db.sales_challans ++
          [⟨db.next_sc_id, mintAbbrev "SC" db.today (db.sales_challans.map (fun c => c.sc_number)),
            customer⟩]
        next_sc_id := db.next_sc_id + 1 } so
    have hndu : NodupLots (unreserve_stock_for_sales_order
        { db with
          sales_challans := db.sales_challans ++
            [⟨db.next_sc_id, mintAbbrev "SC" db.today (db.sales_challans.map (fun c => c.sc_number)),
              customer⟩]
          next_sc_id := db.next_sc_id + 1 } so).1 := by
      unfold NodupLots
      rw [hu.2]
      exact hnd
    have h := processChallanItems_effects (some so) db.next_sc_id items
      (unreserve_stock_for_sales_order
        { db with
          sales_challans := db.sales_challans ++
            [⟨db.next_sc_id, mintAbbrev "SC" db.today (db.sales_challans.map (fun c => c.sc_number)),
              customer⟩]
          next_sc_id := db.next_sc_id + 1 } so).1 loc hndu
    exact ⟨fun i => (h.1 i).trans (hu.1 i), h.2.trans hu.2⟩

theorem find?_update_self (lots : List Lot) (j : Nat) (f : Lot → Lot)
    (hid : ∀ l, (f l).id = l.id) :
    (updateLot lots j f).find? (fun l => l.id == j) =
      (lots.find? (fun l => l.id == j)).map f := by
  induction lots with
  | nil => rfl
  | cons x xs ih =>
    rw [updateLot_cons]
    by_cases hx : (x.id == j) = true
    · rw [if_pos hx]
      have h1 : ((f x).id == j) = true := by rw [hid]; exact hx
      rw [List.find?_cons_of_pos (p := fun (l : Lot) => l.id == j) _ h1,
        List.find?_cons_of_pos (p := fun (l : Lot) => l.id == j) _ hx]
      rfl
    · rw [if_neg hx, List.find?_cons_of_neg (p := fun (l : Lot) => l.id == j) _ hx,
        List.find?_cons_of_neg (p := fun (l : Lot) => l.id == j) _ hx, ih]

theorem find?_update_other (lots : List Lot) (a j : Nat) (f : Lot → Lot)
    (hne : j ≠ a) (hid : ∀ l, (f l).id = l.id) :
    (updateLot lots a f).find? (fun l => l.id == j) = lots.find? (fun l => l.id == j) := by
  induction lots with
  | nil => rfl
  | cons x xs ih =>
    rw [updateLot_cons]
    by_cases hxa : (x.id == a) = true
    · rw [if_pos hxa]
      have hxj : ¬ (x.id == j) = true := by
        simp only [beq_iff_eq] at hxa ⊢
        rw [hxa]
        exact fun hc => hne hc.symm
      have h1 : ¬ ((f x).id == j) = true := by rw [hid]; exact hxj
      rw [List.find?_cons_of_neg (p := fun (l : Lot) => l.id == j) _ h1,
        List.find?_cons_of_neg (p := fun (l : Lot) => l.id == j) _ hxj, ih]
    · rw [if_neg hxa]
      by_cases hxj : (x.id == j) = true
      · rw [List.find?_cons_of_pos (p := fun (l : Lot) => l.id == j) _ hxj,
          List.find?_cons_of_pos (p := fun (l : Lot) => l.id == j) _ hxj]
      · rw [List.find?_cons_of_neg (p := fun (l : Lot) => l.id == j) _ hxj,
          List.find?_cons_of_neg (p := fun (l : Lot) => l.id == j) _ hxj, ih]

theorem nodup_find (lots : List Lot) (j : Nat) (l0 : Lot)
    (hnd : (lots.map (fun l => l.id)).Nodup) (hmem : l0 ∈ lots) (hid : l0.id = j) :
    lots.find? (fun l => l.id == j) = some l0 := by
  induction lots with
  | nil => cases hmem
  | cons x xs ih =>
    rw [List.map_cons, List.nodup_cons] at hnd
    rcases List.mem_cons.mp hmem with h1 | h1
    · subst h1
      exact List.find?_cons_of_pos (p := fun (l : Lot) => l.id == j) _ (by simp [hid])
    · have hxj : ¬ (x.id == j) = true := by
        simp only [beq_iff_eq]
        intro hx
        apply hnd.1
        rw [hx, ← hid]
        exact List.mem_map_of_mem _ h1
      rw [List.find?_cons_of_neg (p := fun (l : Lot) => l.id == j) _ hxj]
      exact ih hnd.2 h1

theorem updateLot_comm (lots : List Lot) (a b : Nat) (f g : Lot → Lot)
    (hab : a ≠ b) (hidf : ∀ l, (f l).id = l.id) (hidg : ∀ l, (g l).id = l.id) :
    updateLot (updateLot lots a f) b g = updateLot (updateLot lots b g) a f := by
  unfold updateLot
  rw [List.map_map, List.map_map]
  apply List.map_congr_left
  intro l _
  dsimp only [Function.comp]
  by_cases ha : (l.id == a) = true <;> by_cases hb : (l.id == b) = true
  · exfalso
    simp only [beq_iff_eq] at ha hb
    exact hab (ha.symm.trans hb)
  · have h1 : ¬ ((f l).id == b) = true := by rw [hidf]; exact hb
    rw [if_neg hb, if_pos ha, if_neg h1]
  · have h1 : ¬ ((g l).id == a) = true := by rw [hidg]; exact ha
    rw [if_neg ha, if_pos hb, if_neg h1]
  · rw [if_neg ha, if_neg hb, if_neg ha]

theorem updateLot_cancel (lots : List Lot) (j : Nat) (f g : Lot → Lot)
    (hidf : ∀ l, (f l).id = l.id) (hcancel : ∀ l, g (f l) = l) :
    updateLot (updateLot lots j f) j g = lots := by
  induction lots with
  | nil => rfl
  | cons x xs ih =>
    rw [updateLot_cons, updateLot_cons]
    by_cases hx : (x.id == j) = true
    · rw [if_pos hx]
      have h1 : ((f x).id == j) = true := by rw [hidf]; exact hx
      rw [if_pos h1, hcancel x, ih]
    · rw [if_neg hx, if_neg hx, ih]

/-- The accumulated lot updates of a reservation list. -/
def applyDeltas (lots : List Lot) : List Reservation → List Lot
  | [] => lots
  | r :: rs => applyDeltas (updateLot lots r.lot_id (reserveDelta r)) rs

theorem applyDeltas_find (rs : List Reservation) (j : Nat)
    (hj : j ∉ rs.map (fun r => r.lot_id)) :
    ∀ lots : List Lot,
      (applyDeltas lots rs).find? (fun l => l.id == j) = lots.find? (fun l => l.id == j) := by
  induction rs with
  | nil => intro lots; rfl
  | cons r rest ih =>
    intro lots
    rw [List.map_cons, List.mem_cons] at hj
    push_neg at hj
    rw [show applyDeltas lots (r :: rest) =
      applyDeltas (updateLot lots r.lot_id (reserveDelta r)) rest from rfl]
    rw [ih (by exact fun hc => hj.2 hc) _]
    exact find?_update_other lots r.lot_id j (reserveDelta r) hj.1 (fun l => rfl)

theorem updateLot_applyDeltas (rs : List Reservation) (j : Nat) (g : Lot → Lot)
    (hj : j ∉ rs.map (fun r => r.lot_id)) (hidg : ∀ l, (g l).id = l.id) :
    ∀ lots : List Lot,
      updateLot (applyDeltas lots rs) j g = applyDeltas (updateLot lots j g) rs := by
  induction rs with
  | nil => intro lots; rfl
  | cons r rest ih =>
    intro lots
    rw [List.map_cons, List.mem_cons] at hj
    push_neg at hj
    rw [show applyDeltas lots (r :: rest) =
      applyDeltas (updateLot lots r.lot_id (reserveDelta r)) rest from rfl]
    rw [ih (by exact fun hc => hj.2 hc) _]
    rw [show applyDeltas (updateLot lots j g) (r :: rest) =
      applyDeltas (updateLot (updateLot lots j g) r.lot_id (reserveDelta r)) rest from rfl]
    congr 1
    exact updateLot_comm lots r.lot_id j (reserveDelta r) g
      (fun hc => hj.1 hc.symm) (fun l => rfl) hidg

theorem release_reserve_cancel (r : Reservation) (l : Lot) :
    releaseDelta r.allocated_quantity (reserveDelta r l) = l := by
  cases l
  simp only [releaseDelta, reserveDelta, Lot.mk.injEq, and_true, true_and]
  omega

theorem greedyReserve_ids_sublist :
    ∀ (ls : List Lot) (req : Int),
      List.Sublist ((greedyReserve ls req).map (fun r => r.lot_id))
        (ls.map (fun l => l.id)) := by
  intro ls
  induction ls with
  | nil => intro req; exact List.Sublist.refl _
  | cons lot rest ih =>
    intro req
    rw [greedyReserve_cons]
    by_cases hr : req ≤ 0
    · rw [if_pos hr]
      exact List.nil_sublist _
    · rw [if_neg hr, List.map_cons, List.map_cons]
      exact List.Sublist.cons₂ _ (ih _)

theorem greedyReserve_mem :
    ∀ (ls : List Lot) (req : Int) (r : Reservation), r ∈ greedyReserve ls req →
      ∃ l ∈ ls, r.lot_id = l.id := by
  intro ls
  induction ls with
  | nil => intro req r h; cases h
  | cons lot rest ih =>
    intro req r h
    rw [greedyReserve_cons] at h
    by_cases hr : req ≤ 0
    · rw [if_pos hr] at h
      cases h
    · rw [if_neg hr] at h
      rcases List.mem_cons.mp h with h1 | h1
      · exact ⟨lot, List.mem_cons_self lot rest, by rw [h1]⟩
      · obtain ⟨l, hl, he⟩ := ih _ r h1
        exact ⟨l, List.mem_cons_of_mem lot hl, he⟩

theorem anyLocationCandidates_sub (db : DB) (p : Nat) :
    ∀ l ∈ anyLocationCandidates db p, l ∈ db.lots := fun l hl =>
  List.mem_of_mem_filter ((fifoSort_perm _).mem_iff.mp hl)

theorem anyLocationCandidates_nodup (db : DB) (p : Nat) (hnd : NodupLots db) :
    ((anyLocationCandidates db p).map (fun l => l.id)).Nodup := by
  unfold anyLocationCandidates
  have hnd2 : (db.lots.map (fun l => l.id)).Nodup := hnd
  have h1 : ((db.lots.filter (fun l =>
      l.product_id == p && decide (l.available_quantity > 0) &&
        db.active_locations.contains l.location_id)).map (fun l => l.id)).Nodup :=
    ((List.filter_sublist db.lots).map (fun (l : Lot) => l.id)).nodup hnd2
  exact (((fifoSort_perm _).map (fun (l : Lot) => l.id)).nodup_iff).mpr h1

theorem applyReservations_cons (so : Nat) (db : DB) (r : Reservation)
    (rest : List Reservation) :
    applyReservations so db (r :: rest) =
      match lookupLot db r.lot_id with
      | some lot =>
        if lot.available_quantity ≥ r.allocated_quantity then
          applyReservations so
            { db with
              lots := updateLot db.lots r.lot_id (reserveDelta r)
              txns := db.txns ++
                [mkReserveTxn so r (lot.available_quantity - r.allocated_quantity)] }
            rest
        else (db, .error (.updateFailed r.lot_number))
      | none => (db, .error (.updateFailed r.lot_number)) := rfl

theorem applyReservations_ok (so : Nat) :
    ∀ (rs : List Reservation) (db db1 : DB),
      applyReservations so db rs = (db1, .ok ()) →
      db1.lots = applyDeltas db.lots rs ∧
      ∃ ts : List Txn, db1.txns = db.txns ++ ts ∧
        ts.map tagProj = rs.map (fun r => (r.lot_id, r.allocated_quantity)) ∧
        ∀ u ∈ ts, isReserveRow so u = true := by
  intro rs
  induction rs with
  | nil =>
    intro db db1 h
    have h1 : db = db1 := congrArg Prod.fst h
    refine ⟨by rw [← h1]; rfl, [], by rw [← h1]; simp, rfl, by intro u hu; cases hu⟩
  | cons r rest ih =>
    intro db db1 h
    rw [applyReservations_cons] at h
    cases hl : lookupLot db r.lot_id with
    | none =>
      rw [hl] at h
      exact absurd (congrArg Prod.snd h) (fun hc => Except.noConfusion hc)
    | some lot =>
      rw [hl] at h
      dsimp only at h
      by_cases hge : lot.available_quantity ≥ r.allocated_quantity
      · rw [if_pos hge] at h
        obtain ⟨hlots, ts, h1, h2, h3⟩ := ih _ db1 h
        refine ⟨by rw [hlots]; rfl,
          mkReserveTxn so r (lot.available_quantity - r.allocated_quantity) :: ts, ?_, ?_, ?_⟩
        · rw [h1]
          show (db.txns ++ [mkReserveTxn so r (lot.available_quantity - r.allocated_quantity)])
              ++ ts = _
          simp
        · rw [List.map_cons, h2]
          rfl
        · intro u hu
          rcases List.mem_cons.mp hu with h4 | h4
          · rw [h4]
            simp [isReserveRow, mkReserveTxn]
          · exact h3 u h4
      · rw [if_neg hge] at h
        exact absurd (congrArg Prod.snd h) (fun hc => Except.noConfusion hc)

theorem reserve_ok (db : DB) (so p : Nat) (req : Int) (db1 : DB) (tot : Int)
    (h : reserve_stock_for_sales_order_any_location db so p req = (db1, .ok tot)) :
    applyReservations so db (greedyReserve (anyLocationCandidates db p) req) =
      (db1, .ok ()) := by
  unfold reserve_stock_for_sales_order_any_location at h
  by_cases he : (anyLocationCandidates db p).isEmpty = true
  · rw [if_pos he] at h
    exact absurd (congrArg Prod.snd h) (fun hc => Except.noConfusion hc)
  · rw [if_neg he] at h
    by_cases hlt : totalAvail (anyLocationCandidates db p) < req
    · rw [if_pos hlt] at h
      exact absurd (congrArg Prod.snd h) (fun hc => Except.noConfusion hc)
    · rw [if_neg hlt] at h
      dsimp only at h
      cases hres : (applyReservations so db (greedyReserve (anyLocationCandidates db p) req)).2 with
      | ok u =>
        rw [hres] at h
        dsimp only at h
        have h1 : (applyReservations so db (greedyReserve (anyLocationCandidates db p) req)).1 =
            db1 := congrArg Prod.fst h
        cases u
        exact Prod.ext h1 hres
      | error e =>
        rw [hres] at h
        exact absurd (congrArg Prod.snd h) (fun hc => Except.noConfusion hc)

theorem unreserveLoop_restores (so : Nat) :
    ∀ (rs : List Reservation) (ts : List Txn) (dbA dbB : DB) (tot : Int),
      dbB.lots = applyDeltas dbA.lots rs →
      ts.map tagProj = rs.map (fun r => (r.lot_id, r.allocated_quantity)) →
      (rs.map (fun r => r.lot_id)).Nodup →
      NodupLots dbA →
      (∀ r ∈ rs, ∃ l ∈ dbA.lots, l.id = r.lot_id ∧ 0 ≤ l.committed_quantity) →
      (unreserveLoop so dbB ts tot).1.lots = dbA.lots ∧
      ∃ us : List Txn, (unreserveLoop so dbB ts tot).1.txns = dbB.txns ++ us ∧
        us.map tagProj = rs.map (fun r => (r.lot_id, r.allocated_quantity)) ∧
        ∀ u ∈ us, isUnreserveRow so u = true := by
  intro rs
  induction rs with
  | nil =>
    intro ts dbA dbB tot hBlots hproj hnodup hndA hmem
    have hts : ts = [] := List.map_eq_nil_iff.mp hproj
    subst hts
    refine ⟨?_, [], ?_, rfl, by intro u hu; cases hu⟩
    · show dbB.lots = dbA.lots
      rw [hBlots]
      rfl
    · show dbB.txns = dbB.txns ++ []
      simp
  | cons r rest ih =>
    intro ts dbA dbB tot hBlots hproj hnodup hndA hmem
    cases ts with
    | nil => exact absurd hproj (by simp)
    | cons t ts2 =>
      rw [List.map_cons, List.map_cons] at hproj
      have hpt : tagProj t = (r.lot_id, r.allocated_quantity) := (List.cons_eq_cons.mp hproj).1
      have hpr : ts2.map tagProj = rest.map (fun r => (r.lot_id, r.allocated_quantity)) :=
        (List.cons_eq_cons.mp hproj).2
      have htid : t.lot_id = r.lot_id := congrArg Prod.fst hpt
      have htq : t.quantity = r.allocated_quantity := congrArg Prod.snd hpt
      rw [List.map_cons, List.nodup_cons] at hnodup
      obtain ⟨l0, hl0mem, hl0id, hl0comm⟩ := hmem r (List.mem_cons_self r rest)
      have hndA2 : (dbA.lots.map (fun l => l.id)).Nodup := hndA
      have hfindA : dbA.lots.find? (fun l => l.id == r.lot_id) = some l0 :=
        nodup_find dbA.lots r.lot_id l0 hndA2 hl0mem hl0id
      have hfindB : dbB.lots.find? (fun l => l.id == r.lot_id) =
          some (reserveDelta r l0) := by
        rw [hBlots]
        rw [show applyDeltas dbA.lots (r :: rest) =
          applyDeltas (updateLot dbA.lots r.lot_id (reserveDelta r)) rest from rfl]
        rw [applyDeltas_find rest r.lot_id hnodup.1 _]
        rw [find?_update_self dbA.lots r.lot_id (reserveDelta r) (fun l => rfl), hfindA]
        rfl
      have hlook : lookupLot dbB t.lot_id = some (reserveDelta r l0) := by
        unfold lookupLot
        rw [htid]
        exact hfindB
      rw [unreserveLoop_cons, hlook]
      dsimp only
      have hge : (reserveDelta r l0).committed_quantity ≥ t.quantity := by
        dsimp only [reserveDelta]
        rw [htq]
        omega
      rw [if_pos hge]
      have hB2 : ({ dbB with
          lots := updateLot dbB.lots t.lot_id (releaseDelta t.quantity)
          txns := dbB.txns ++ [mkUnreserveTxn so t.lot_id t.quantity
            ((reserveDelta r l0).available_quantity + t.quantity)] } : DB).lots =
          applyDeltas dbA.lots rest := by
        show updateLot dbB.lots t.lot_id (releaseDelta t.quantity) = _
        rw [hBlots, htid, htq]
        rw [show applyDeltas dbA.lots (r :: rest) =
          applyDeltas (updateLot dbA.lots r.lot_id (reserveDelta r)) rest from rfl]
        rw [updateLot_applyDeltas rest r.lot_id (releaseDelta r.allocated_quantity)
          hnodup.1 (fun l => rfl) _]
        congr 1
        exact updateLot_cancel dbA.lots r.lot_id (reserveDelta r)
          (releaseDelta r.allocated_quantity) (fun l => rfl)
          (fun l => release_reserve_cancel r l)
      obtain ⟨hlots, us, hus1, hus2, hus3⟩ := ih ts2 dbA _ (tot + t.quantity) hB2 hpr
        hnodup.2 hndA (fun r2 h2 => hmem r2 (List.mem_cons_of_mem r h2))
      refine ⟨hlots, mkUnreserveTxn so t.lot_id t.quantity
        ((reserveDelta r l0).available_quantity + t.quantity) :: us, ?_, ?_, ?_⟩
      · rw [hus1]
        show (dbB.txns ++ [mkUnreserveTxn so t.lot_id t.quantity
          ((reserveDelta r l0).available_quantity + t.quantity)]) ++ us = _
        simp
      · rw [List.map_cons, hus2]
        show (t.lot_id, t.quantity) :: _ = _
        rw [htid, htq]
        rfl
      · intro u hu
        rcases List.mem_cons.mp hu with h4 | h4
        · rw [h4]
          simp [isUnreserveRow, mkUnreserveTxn]
        · exact hus3 u h4

/-- The gap-filling contract of a minted identifier over a date-scoped stem:
the minted string is the stem followed by the smallest positive integer not
among the trailing integers already used on that stem. -/
def GapFillSpec (stem minted : String) (existing : List String) : Prop :=
  minted = stem ++ toString (smallestFree (extractUsedIds stem existing)) ∧
  smallestFree (extractUsedIds stem existing) ∉ extractUsedIds stem existing ∧
  1 ≤ smallestFree (extractUsedIds stem existing) ∧
  ∀ m, 1 ≤ m → m < smallestFree (extractUsedIds stem existing) →
    m ∈ extractUsedIds stem existing

/-! ## Concrete scenario states used by the claim theorems -/

/-- One inbound of 50 kg of product 7 into location 1 (lot 1; because of the
double-count its stored available quantity is 100). -/
def dbOneLot : DB :=
  (create_inventory_lot emptyDB 7 1 1 3 9 100 50).1

/-- Scenario for C4: lot 1 is fully reserved by order 1, lot 2 (younger) by
order 2, then order 1 is cancelled, releasing lot 1. -/
def dbConv : DB :=
  let d1 := (create_sales_order dbOneLot 4 [⟨1, 7, 2, 100⟩] none).1
  let d2 := (create_inventory_lot d1 7 1 1 3 10 100 50).1
  let d3 := (create_sales_order d2 5 [⟨1, 7, 2, 100⟩] none).1
  (unreserve_stock_for_sales_order d3 1).1

/-- Scenario for C5: a CANCELLED sales order (not deleted, not converted)
with one 10 kg line of product 7, while lot 1 holds available stock. -/
def dbCancelled : DB :=
  { dbOneLot with
    sales_orders := [⟨1, "SO/2025/JUL/20/1", 4, "Cancelled", false, false⟩]
    sales_order_items := [⟨1, 1, 7, 2, 10⟩]
    next_so_id := 2 }

/-- Scenario for C7: two lots of product 7 with the same `created_at`,
stored with the higher lot id first (Postgres guarantees no order between
rows tied on the ORDER BY key). -/
def dbTied : DB :=
  { emptyDB with
    lots := [⟨2, "LOT/2025/07/20/2", 7, 1, 1, 3, 10, 100, 0, 5⟩,
             ⟨1, "LOT/2025/07/20/1", 7, 1, 1, 3, 9, 100, 0, 5⟩]
    next_lot_id := 3 }

/-- Scenario for C8: order 1 holds 20 kg committed on lot 1, order 2 held
10 kg and has already been unreserved once. -/
def dbTwice : DB :=
  let d1 := (create_sales_order dbOneLot 4 [⟨1, 7, 1, 20⟩] none).1
  let d2 := (create_sales_order d1 5 [⟨1, 7, 1, 10⟩] none).1
  (unreserve_stock_for_sales_order d2 2).1

/-- Scenario for C9: order 1 has a stale RESERVE row from an earlier
reserve/unreserve cycle, and order 2 holds 15 kg committed on lot 1.  Lot 1
stands at `(85, 15)` before order 1 reserves again. -/
def dbStale : DB :=
  let d1 := (reserve_stock_for_sales_order_any_location dbOneLot 1 7 10).1
  let d2 := (unreserve_stock_for_sales_order d1 1).1
  (reserve_stock_for_sales_order_any_location d2 2 7 15).1

/-! ## Claim theorems -/

/-- C1: the claim says every coordinator reserve/outbound operation is
atomic with no partial success mode.  The code is not atomic: evaluating
create_sales_order on a two-line order whose second line has no stock
returns an error and rolls back the order row, yet the first line's
reservation survives -- lot 1 moved from (100, 0) to (90, 10) and its
RESERVE transaction is recorded (the reservations ran through execute_query,
which commits per statement on its own connection, outside the private
transaction the rollback undoes). -/
theorem c1_reserve_not_atomic :
    (create_sales_order dbOneLot 4 [⟨1, 7, 2, 10⟩, ⟨1, 8, 1, 5⟩] none).2 =
        .error (.reservationFailed [8]) ∧
    (create_sales_order dbOneLot 4 [⟨1, 7, 2, 10⟩, ⟨1, 8, 1, 5⟩] none).1.sales_orders = [] ∧
    (lookupLot (create_sales_order dbOneLot 4 [⟨1, 7, 2, 10⟩, ⟨1, 8, 1, 5⟩] none).1 1).map
        (fun l => (l.available_quantity, l.committed_quantity)) = some (90, 10) ∧
    (reserveTxnsFor (create_sales_order dbOneLot 4 [⟨1, 7, 2, 10⟩, ⟨1, 8, 1, 5⟩] none).1 1).map
        tagProj = [(1, 10)] ∧
    (lookupLot dbOneLot 1).map
        (fun l => (l.available_quantity, l.committed_quantity)) = some (100, 0) := by
  decide

/-- C2: the claim says an Inbound of quantity q yields a lot with
`available = q, committed = 0` and one INBOUND transaction with balance q.
The code first inserts the lot with `available = q` and then lets
record_inventory_transaction add q again, so an Inbound of 500 yields
`available = 1000` and an INBOUND transaction with balance 1000 (while the
dict returned to the caller still reports 500). -/
theorem c2_inbound_double_count :
    (create_inventory_lot emptyDB 7 1 1 3 9 100 500).1.lots.map
        (fun l => (l.id, l.available_quantity, l.committed_quantity)) = [(1, 1000, 0)] ∧
    (create_inventory_lot emptyDB 7 1 1 3 9 100 500).1.txns.map
        (fun t => (t.lot_id, t.transaction_type, t.quantity, t.balance_quantity)) =
      [(1, TxnType.INBOUND, 500, 1000)] ∧
    (create_inventory_lot emptyDB 7 1 1 3 9 100 500).2 = ⟨1, "LOT/2025/07/20/1", 500⟩ := by
  decide

/-- C3: the claim says conservation (I2) holds after any individually
successful sequence of operations.  It fails already after a single
Inbound of 500: the lot's `available + committed` is 1000 while its
recorded INBOUND minus OUTBOUND flow is 500 (the same double-count as C2),
so the residual is 500, not 0. -/
theorem c3_conservation_violated :
    lotMass (create_inventory_lot emptyDB 7 1 1 3 9 100 500).1.lots 1 = 1000 ∧
    netFlow (create_inventory_lot emptyDB 7 1 1 3 9 100 500).1.txns 1 = 500 ∧
    residual (create_inventory_lot emptyDB 7 1 1 3 9 100 500).1 1 ≠ 0 := by
  decide

/-- C4 counterexample: order 2 reserved lot 2 only, but the conversion
deducts its 100 kg from lot 1 (released by the cancelled order 1 and older
in FIFO order), so the stock consumed is not the stock previously set
aside for the order. -/
theorem c4_counterexample :
    (reserveTxnsFor dbConv 2).map (fun t => t.lot_id) = [2] ∧
    (convert_sales_order_to_challan dbConv 2).2 =
        .ok ⟨2, 1, "SC/2025/JUL/20/1"⟩ ∧
    ((convert_sales_order_to_challan dbConv 2).1.txns.filter
        (fun t => t.transaction_type == TxnType.OUTBOUND)).map tagProj = [(1, 100)] ∧
    (lookupLot (convert_sales_order_to_challan dbConv 2).1 2).map
        (fun l => (l.available_quantity, l.committed_quantity)) = some (100, 0) := by
  decide

/-- C5 counterexample: a CANCELLED order (violating the claimed
`status = NEW` precondition, but neither deleted nor converted) is
converted successfully -- the guard only checks `is_deleted` and
`converted_to_challan` -- and state changes: the order flips to Delivered /
converted and 10 kg leave lot 1. -/
theorem c5_counterexample :
    (dbCancelled.sales_orders.map (fun so => so.status) = ["Cancelled"]) ∧
    (convert_sales_order_to_challan dbCancelled 1).2 =
        .ok ⟨1, 1, "SC/2025/JUL/20/1"⟩ ∧
    (convert_sales_order_to_challan dbCancelled 1).1.sales_orders.map
        (fun so => (so.status, so.converted_to_challan)) = [("Delivered", true)] ∧
    (lookupLot (convert_sales_order_to_challan dbCancelled 1).1 1).map
        (fun l => l.available_quantity) = some 90 := by
  decide

/-- C6 counterexample: lot numbers are minted with the zero-padded numeric
month, not the uppercase three-letter abbreviation (an empty store on
2025-07-20 yields "LOT/2025/07/20/1", not "LOT/2025/JUL/20/1"), and JO
numbers use count+1 instead of gap-filling (with JO/2025/JUL/20/1 and
JO/2025/JUL/20/3 present the next mint is the already-used .../3, not the
smallest free .../2). -/
theorem c6_counterexample :
    mintLotNumber ⟨2025, 7, 20⟩ [] = "LOT/2025/07/20/1" ∧
    mintLotNumber ⟨2025, 7, 20⟩ [] ≠ dateStemAbbrev "LOT" ⟨2025, 7, 20⟩ ++ "1" ∧
    mintJO ⟨2025, 7, 20⟩ ["JO/2025/JUL/20/1", "JO/2025/JUL/20/3"] = "JO/2025/JUL/20/3" ∧
    mintJO ⟨2025, 7, 20⟩ ["JO/2025/JUL/20/1", "JO/2025/JUL/20/3"] ≠ "JO/2025/JUL/20/2" := by
  decide

/-- C7 counterexample: two lots share `created_at = 5` and are stored with
lot 2 first; the allocator's ORDER BY has no lot_id tiebreaker, so the
allocation walks lot 2 before lot 1, violating the claimed ascending-lot-id
tie-break (which would demand lot 1 first). -/
theorem c7_counterexample :
    allocate_stock_for_outbound dbTied 7 1 150 =
        .ok [⟨2, "LOT/2025/07/20/2", 100, 1⟩, ⟨1, "LOT/2025/07/20/1", 50, 1⟩] ∧
    [Allocation.mk 2 "LOT/2025/07/20/2" 100 1,
        Allocation.mk 1 "LOT/2025/07/20/1" 50 1].map (fun a => a.lot_id) = [2, 1] ∧
    allocate_stock_for_outbound dbTied 7 1 150 ≠
        .ok [⟨1, "LOT/2025/07/20/1", 100, 1⟩, ⟨2, "LOT/2025/07/20/2", 50, 1⟩] := by
  decide

/-- C7 amended: both allocator variants walk lots ordered by `created_at`
ascending -- with ties left in storage order, not broken by lot id, as the
counterexample shows -- taking min(remaining, available) greedily; when the
eligible stock suffices the returned allocations sum exactly to the required
quantity, and when it does not the operation fails with an
insufficient-stock result carrying the total available and the required
quantity. -/
theorem c7_amended (db : DB) (p loc : Nat) (req : Int) :
    (fifoCandidates db p loc).Pairwise (fun a b => a.created_at ≤ b.created_at) ∧
    (anyLocationCandidates db p).Pairwise (fun a b => a.created_at ≤ b.created_at) ∧
    ((fifoCandidates db p loc).isEmpty = false →
      totalAvail (fifoCandidates db p loc) < req →
      allocate_stock_for_outbound db p loc req =
        .error (.insufficient (totalAvail (fifoCandidates db p loc)) req)) ∧
    ((fifoCandidates db p loc).isEmpty = false → 0 ≤ req →
      req ≤ totalAvail (fifoCandidates db p loc) →
      allocate_stock_for_outbound db p loc req =
          .ok (greedyAllocate loc (fifoCandidates db p loc) req) ∧
        allocSum (greedyAllocate loc (fifoCandidates db p loc) req) = req) ∧
    (∀ so, (anyLocationCandidates db p).isEmpty = false →
      totalAvail (anyLocationCandidates db p) < req →
      reserve_stock_for_sales_order_any_location db so p req =
        (db, .error (.insufficient p req (totalAvail (anyLocationCandidates db p))))) ∧
    (0 ≤ req → req ≤ totalAvail (anyLocationCandidates db p) →
      resSum (greedyReserve (anyLocationCandidates db p) req) = req) := by
  refine ⟨fifoSort_sorted _, fifoSort_sorted _, ?_, ?_, ?_, ?_⟩
  · intro he hlt
    unfold allocate_stock_for_outbound
    simp only [he, Bool.false_eq_true, if_false, if_pos hlt]
  · intro he h0 h1
    have hnlt : ¬ totalAvail (fifoCandidates db p loc) < req := not_lt.mpr h1
    constructor
    · unfold allocate_stock_for_outbound
      simp only [he, Bool.false_eq_true, if_false, if_neg hnlt]
    · exact greedyAllocate_sum loc _ req h0 h1
  · intro so he hlt
    unfold reserve_stock_for_sales_order_any_location
    simp only [he, Bool.false_eq_true, if_false, if_pos hlt]
  · intro h0 h1
    exact greedyReserve_sum _ req h0 h1

/-- Witness for the amended C7: allocating 60 kg from the one-lot store
succeeds with allocations summing to 60. -/
theorem c7_amended_witness :
    allocate_stock_for_outbound dbOneLot 7 1 60 =
        .ok (greedyAllocate 1 (fifoCandidates dbOneLot 7 1) 60) ∧
      allocSum (greedyAllocate 1 (fifoCandidates dbOneLot 7 1) 60) = 60 :=
  (c7_amended dbOneLot 7 1 60).2.2.2.1 (by decide) (by decide) (by decide)

/-- C8 counterexample: order 2 was already unreserved once, yet a second
Unreserve is not a no-op: the locator re-finds order 2's RESERVE row, and
because order 1 still holds 20 kg committed on lot 1 the predicate
`committed >= 10` passes, moving lot 1 from (80, 20) to (90, 10) and
appending a second UNRESERVE transaction. -/
theorem c8_counterexample :
    (lookupLot dbTwice 1).map (fun l => (l.available_quantity, l.committed_quantity)) =
        some (80, 20) ∧
    (unreserveTxnsFor dbTwice 2).length = 1 ∧
    (unreserve_stock_for_sales_order dbTwice 2).2 = .released 10 ∧
    (lookupLot (unreserve_stock_for_sales_order dbTwice 2).1 1).map
        (fun l => (l.available_quantity, l.committed_quantity)) = some (90, 10) ∧
    (unreserveTxnsFor (unreserve_stock_for_sales_order dbTwice 2).1 2).length = 2 := by
  decide

/-- C4 amended: across the whole Unreserve-then-Outbound conversion, every
lot's conservation residual -- `available + committed` minus the net
recorded INBOUND-minus-OUTBOUND flow -- is unchanged, i.e. the pair moves
exactly by what the operation logs (RESERVE/UNRESERVE zero-sum, OUTBOUND
deducting); but the stock consumed comes from a fresh FIFO allocation at
the first reserved location per product, not necessarily from the lots
previously reserved for the order, as the counterexample shows. -/
theorem c4_amended (db : DB) (so : Nat) (hnd : NodupLots db) (i : Nat) :
    residual (convert_sales_order_to_challan db so).1 i = residual db i := by
  unfold convert_sales_order_to_challan
  cases hf : db.sales_orders.find? (fun s =>
      s.id == so && !s.is_deleted && !s.converted_to_challan) with
  | none => rfl
  | some so_row =>
    dsimp only
    by_cases hi : (db.sales_order_items.filter (fun it => it.so_id == so)).isEmpty = true
    · rw [if_pos hi]
    · rw [if_neg hi]
      dsimp only
      have h := create_sales_challan_effects db so_row.customer_id
        ((db.sales_order_items.filter (fun it => it.so_id == so)).map toChallanInput)
        1 (some so) hnd
      exact h.1 i

/-- Witness for the amended C4 at the conversion scenario. -/
theorem c4_amended_witness :
    residual (convert_sales_order_to_challan dbConv 2).1 1 = residual dbConv 1 :=
  c4_amended dbConv 2 (by unfold NodupLots; decide) 1

/-- C5 amended: conversion requires only that the order is not soft-deleted
and not already converted (the status is not part of the guard); whenever
every order row with the requested id is deleted or converted, convert
returns an error and leaves the store unchanged. -/
theorem c5_amended (db : DB) (so_id : Nat)
    (h : ∀ so ∈ db.sales_orders, so.id = so_id →
      so.is_deleted = true ∨ so.converted_to_challan = true) :
    convert_sales_order_to_challan db so_id = (db, .error .notFoundOrConverted) := by
  have hf : db.sales_orders.find? (fun so =>
      so.id == so_id && !so.is_deleted && !so.converted_to_challan) = none := by
    apply List.find?_eq_none.mpr
    intro so hso
    by_cases hid : so.id = so_id
    · rcases h so hso hid with hd | hc
      · simp [hid, hd]
      · simp [hid, hc]
    · simp [hid]
  unfold convert_sales_order_to_challan
  rw [hf]

/-- Scenario: the only order with id 1 is already converted to a challan. -/
def dbConverted : DB :=
  { emptyDB with sales_orders := [⟨1, "SO/2025/JUL/20/1", 4, "Delivered", true, false⟩] }

/-- Witness for the amended C5 at a concrete converted order. -/
theorem c5_amended_witness :
    convert_sales_order_to_challan dbConverted 1 =
      (dbConverted, .error .notFoundOrConverted) :=
  c5_amended dbConverted 1 (by decide)

/-- C6 amended: the GRN / SO / SC / PO minter returns its uppercase
month-abbreviation stem followed by the smallest positive integer unused on
that stem, and the LOT minter obeys the same gap-filling contract over its
zero-padded numeric month stem (the JO minter, by contrast, uses count+1,
as the counterexample shows). -/
theorem c6_amended (pfx : String) (d : Date) (existing : List String) :
    GapFillSpec (dateStemAbbrev pfx d) (mintAbbrev pfx d existing) existing ∧
    GapFillSpec (dateStemNumeric "LOT" d) (mintLotNumber d existing) existing := by
  obtain ⟨a1, a2, a3⟩ := smallestFree_spec (extractUsedIds (dateStemAbbrev pfx d) existing)
  obtain ⟨b1, b2, b3⟩ := smallestFree_spec (extractUsedIds (dateStemNumeric "LOT" d) existing)
  exact ⟨⟨rfl, a1, a2, a3⟩, ⟨rfl, b1, b2, b3⟩⟩

/-- Witness for the amended C6: with GRN/2025/JUL/20/1 and GRN/2025/JUL/20/3
present, the mint fills the gap with 2. -/
theorem c6_amended_witness :
    mintAbbrev "GRN" ⟨2025, 7, 20⟩ ["GRN/2025/JUL/20/1", "GRN/2025/JUL/20/3"] =
      "GRN/2025/JUL/20/2" := by
  have h := (c6_amended "GRN" ⟨2025, 7, 20⟩ ["GRN/2025/JUL/20/1", "GRN/2025/JUL/20/3"]).1
  rw [h.1]
  decide

/-- The released-state test of the second Unreserve: the lot referenced by a
RESERVE row has committed quantity strictly below the row's quantity (or no
longer exists). -/
def committedBelow (db : DB) (t : Txn) : Bool :=
  match lookupLot db t.lot_id with
  | some l => decide (l.committed_quantity < t.quantity)
  | none => true

theorem unreserveLoop_noop (so_id : Nat) (db : DB) (ts : List Txn)
    (h : ∀ t ∈ ts, committedBelow db t = true) :
    ∀ tot, unreserveLoop so_id db ts tot = (db, tot) := by
  induction ts with
  | nil => intro tot; rfl
  | cons t rest ih =>
    intro tot
    have ht := h t (List.mem_cons_self t rest)
    unfold committedBelow at ht
    have hrest : ∀ u ∈ rest, committedBelow db u = true := fun u hu =>
      h u (List.mem_cons_of_mem t hu)
    cases hl : lookupLot db t.lot_id with
    | none =>
      rw [unreserveLoop_cons, hl]
      exact ih hrest tot
    | some l =>
      rw [hl] at ht
      have hlt : l.committed_quantity < t.quantity := of_decide_eq_true ht
      have hng : ¬ l.committed_quantity ≥ t.quantity := not_le.mpr hlt
      rw [unreserveLoop_cons, hl]
      simp only [if_neg hng]
      exact ih hrest tot

/-- C8 amended: a second Unreserve of an order is a no-op exactly in the
released states the predicate produces -- whenever every RESERVE row of the
order points at a lot whose committed quantity is below that row's quantity
(as after a first Unreserve when no other order holds enough committed
stock on those lots), the operation changes nothing.  When another order
does hold enough committed stock, the second Unreserve moves that stock to
available instead, as the counterexample shows. -/
theorem c8_amended (db : DB) (so_id : Nat)
    (h : ∀ t ∈ reserveTxnsFor db so_id, committedBelow db t = true) :
    (unreserve_stock_for_sales_order db so_id).1 = db := by
  unfold unreserve_stock_for_sales_order
  by_cases he : (reserveTxnsFor db so_id).isEmpty
  · simp [he]
  · simp only [he, Bool.false_eq_true, if_false]
    rw [unreserveLoop_noop so_id db (reserveTxnsFor db so_id) h 0]

/-- Scenario: order 1 reserved 10 kg on lot 1 and has already been
unreserved once; no other order holds committed stock. -/
def dbReleased : DB :=
  let d1 := (reserve_stock_for_sales_order_any_location dbOneLot 1 7 10).1
  (unreserve_stock_for_sales_order d1 1).1

/-- Witness for the amended C8: the second Unreserve of order 1 leaves the
store untouched. -/
theorem c8_amended_witness :
    (unreserve_stock_for_sales_order dbReleased 1).1 = dbReleased :=
  c8_amended dbReleased 1 (by decide)

/-- C9 amended: for every store with unique lot ids, non-negative committed
counters and no earlier RESERVE transactions of the order (a fresh order,
as in the normal creation flow), a successful Reserve followed immediately
by Unreserve of the same order returns every lot exactly to its pre-Reserve
state, and the Unreserve appends exactly one matching UNRESERVE transaction
(same lot, same quantity) per RESERVE transaction the Reserve wrote.  With
stale RESERVE rows from an earlier cycle the restoration fails, as the
counterexample shows. -/
theorem c9_amended (db : DB) (so p : Nat) (req : Int) (db1 : DB) (tot : Int)
    (hnd : NodupLots db)
    (hcomm : ∀ l ∈ db.lots, 0 ≤ l.committed_quantity)
    (hfresh : reserveTxnsFor db so = [])
    (hok : reserve_stock_for_sales_order_any_location db so p req = (db1, .ok tot)) :
    (unreserve_stock_for_sales_order db1 so).1.lots = db.lots ∧
    ∃ us : List Txn, (unreserve_stock_for_sales_order db1 so).1.txns = db1.txns ++ us ∧
      us.map tagProj = (reserveTxnsFor db1 so).map tagProj ∧
      ∀ u ∈ us, isUnreserveRow so u = true := by
  have happ := reserve_ok db so p req db1 tot hok
  obtain ⟨hlots1, ts, htx1, htx2, htx3⟩ := applyReservations_ok so
    (greedyReserve (anyLocationCandidates db p) req) db db1 happ
  have hres1 : reserveTxnsFor db1 so = ts := by
    unfold reserveTxnsFor
    rw [htx1, List.filter_append]
    rw [show db.txns.filter (isReserveRow so) = reserveTxnsFor db so from rfl, hfresh]
    rw [List.filter_eq_self.mpr (fun u hu => (htx3 u hu))]
    rfl
  have hnodup_rs : ((greedyReserve (anyLocationCandidates db p) req).map
      (fun r => r.lot_id)).Nodup :=
    (greedyReserve_ids_sublist (anyLocationCandidates db p) req).nodup
      (anyLocationCandidates_nodup db p hnd)
  have hmem : ∀ r ∈ greedyReserve (anyLocationCandidates db p) req,
      ∃ l ∈ db.lots, l.id = r.lot_id ∧ 0 ≤ l.committed_quantity := by
    intro r hr
    obtain ⟨l, hl, he⟩ := greedyReserve_mem (anyLocationCandidates db p) req r hr
    have hmem2 := anyLocationCandidates_sub db p l hl
    exact ⟨l, hmem2, he.symm, hcomm l hmem2⟩
  unfold unreserve_stock_for_sales_order
  rw [hres1]
  by_cases hempty : ts.isEmpty = true
  · rw [if_pos hempty]
    have hts : ts = [] := by
      cases ts with
      | nil => rfl
      | cons a b => simp [List.isEmpty] at hempty
    have hrs0 : greedyReserve (anyLocationCandidates db p) req = [] := by
      apply List.map_eq_nil_iff.mp
      rw [← htx2, hts]
      rfl
    refine ⟨?_, [], by simp, ?_, by intro u hu; cases hu⟩
    · show db1.lots = db.lots
      rw [hlots1, hrs0]
      rfl
    · rw [hts]
  · rw [if_neg hempty]
    have h := unreserveLoop_restores so (greedyReserve (anyLocationCandidates db p) req)
      ts db db1 0 hlots1 htx2 hnodup_rs hnd hmem
    obtain ⟨hlots, us, hus1, hus2, hus3⟩ := h
    refine ⟨hlots, us, hus1, ?_, hus3⟩
    rw [hus2, htx2]

/-- Witness for the amended C9: on the one-lot store, Reserve of 10 kg by
the fresh order 1 followed by Unreserve restores the lots exactly. -/
theorem c9_amended_witness :
    (unreserve_stock_for_sales_order
        (reserve_stock_for_sales_order_any_location dbOneLot 1 7 10).1 1).1.lots =
      dbOneLot.lots ∧
    ∃ us : List Txn,
      (unreserve_stock_for_sales_order
          (reserve_stock_for_sales_order_any_location dbOneLot 1 7 10).1 1).1.txns =
        (reserve_stock_for_sales_order_any_location dbOneLot 1 7 10).1.txns ++ us ∧
      us.map tagProj =
        (reserveTxnsFor (reserve_stock_for_sales_order_any_location dbOneLot 1 7 10).1 1).map
          tagProj ∧
      ∀ u ∈ us, isUnreserveRow 1 u = true :=
  c9_amended dbOneLot 1 7 10 (reserve_stock_for_sales_order_any_location dbOneLot 1 7 10).1 10
    (by unfold NodupLots; decide) (by decide) (by decide) (by decide)

/-- C10: get_stock_levels only returns lots with a positive available or a
positive committed counter; fully drained lots never appear, for any
filter arguments. -/
theorem c10_stock_levels_positive (db : DB) (loc p : Option Nat) (l : Lot)
    (h : l ∈ get_stock_levels db loc p) :
    0 < l.available_quantity ∨ 0 < l.committed_quantity := by
  unfold get_stock_levels at h
  have h1 := (fifoSort_perm _).mem_iff.mp h
  have h2 := List.of_mem_filter h1
  simp only [Bool.and_eq_true, Bool.or_eq_true, decide_eq_true_eq] at h2
  exact h2.1.1

/-- Witness for C10 at the one-lot store. -/
theorem c10_stock_levels_positive_witness :
    (⟨1, "LOT/2025/07/20/1", 7, 1, 1, 3, 9, 100, 0, 0⟩ : Lot) ∈
        get_stock_levels dbOneLot none none ∧
      (0 < (100 : Int) ∨ 0 < (0 : Int)) :=
  ⟨by decide,
    c10_stock_levels_positive dbOneLot none none
      ⟨1, "LOT/2025/07/20/1", 7, 1, 1, 3, 9, 100, 0, 0⟩ (by decide)⟩

/-- C9 counterexample: lot 1 stands at (85, 15) before order 1 reserves
10 kg (a Reserve that succeeds).  The immediate Unreserve re-finds the
stale RESERVE row of order 1's earlier cycle as well, releases 20 kg, and
leaves the lot at (95, 5) instead of the pre-Reserve (85, 15). -/
theorem c9_counterexample :
    (lookupLot dbStale 1).map (fun l => (l.available_quantity, l.committed_quantity)) =
        some (85, 15) ∧
    (reserve_stock_for_sales_order_any_location dbStale 1 7 10).2 = .ok 10 ∧
    (unreserve_stock_for_sales_order
        (reserve_stock_for_sales_order_any_location dbStale 1 7 10).1 1).2 = .released 20 ∧
    (lookupLot (unreserve_stock_for_sales_order
        (reserve_stock_for_sales_order_any_location dbStale 1 7 10).1 1).1 1).map
        (fun l => (l.available_quantity, l.committed_quantity)) = some (95, 5) := by
  decide

end Vanik
